import Mathlib

/-! # colorsys: conversions between RGB and the YIQ, HLS and HSV colour systems

Shallow embedding of `colorsys.go`, in two readings of a Go `float64`.

* `RgbToYiq`, `YiqToRgb`, `RgbToHls`, `HlsToRgb`, `RgbToHsv`, `HsvToRgb`, `_v`
  and `_mod` are the formulas of the source over exact rationals: no rounding,
  no infinities, no NaN.  A theorem about them is a statement in exact
  arithmetic.
* `RgbToYiqF`, `RgbToHlsF`, `RgbToHsvF` and `_modF` are the same source lines
  with every constant and every operation rounded to float64 by `fl`.  They
  are used to evaluate the code at inputs where rounding decides the result.

Go's `int(x)` on a float truncates toward zero and is modelled by `goInt` with
unbounded integers.  Division by zero does not occur on the branches the
theorems below go through.
-/

namespace Colorsys

/-! ## Constants -/

/-- The constant `ONE_THIRD = 1.0 / 3.0`. -/
def ONE_THIRD : ℚ := 1 / 3

/-- The constant `ONE_SIXTH = 1.0 / 6.0`. -/
def ONE_SIXTH : ℚ := 1 / 6

/-- The constant `TWO_THIRD = 2.0 / 3.0`. -/
def TWO_THIRD : ℚ := 2 / 3

/-! ## Helpers -/

/-- Go's conversion `int(x)` of a float: truncation toward zero. -/
def goInt (x : ℚ) : ℤ := if 0 ≤ x then ⌊x⌋ else ⌈x⌉

/-- Go's builtin `max(a, b, c)`. -/
def max3 (a b c : ℚ) : ℚ := max (max a b) c

/-- Go's builtin `min(a, b, c)`. -/
def min3 (a b c : ℚ) : ℚ := min (min a b) c

/-- The function `_mod`: `number - float64(int(number / divisor)) * divisor`. -/
def _mod (number divisor : ℚ) : ℚ :=
  let quotient : ℚ := ((goInt (number / divisor) : ℤ) : ℚ)
  number - quotient * divisor

/-! ## YIQ -/

/-- The function `RgbToYiq`. -/
def RgbToYiq (r g b : ℚ) : ℚ × ℚ × ℚ :=
  let y := 0.30 * r + 0.59 * g + 0.11 * b
  let i := 0.74 * (r - y) - 0.27 * (b - y)
  let q := 0.48 * (r - y) + 0.41 * (b - y)
  (y, i, q)

/-- The function `YiqToRgb`: the linear inverse followed by the six clamping
`if` statements, in the order of the source. -/
def YiqToRgb (y i q : ℚ) : ℚ × ℚ × ℚ :=
  let r := y + 0.9468822170900693 * i + 0.6235565819861433 * q
  let g := y - 0.27478764629897834 * i - 0.6356910791873801 * q
  let b := y - 1.1085450346420322 * i + 1.7090069284064666 * q
  let r := if r < 0 then 0 else r
  let g := if g < 0 then 0 else g
  let b := if b < 0 then 0 else b
  let r := if r > 1 then 1 else r
  let g := if g > 1 then 1 else g
  let b := if b > 1 then 1 else b
  (r, g, b)

/-! ## HLS -/

/-- The function `RgbToHls`. -/
def RgbToHls (r g b : ℚ) : ℚ × ℚ × ℚ :=
  let maxc := max3 r g b
  let minc := min3 r g b
  let sumc := maxc + minc
  let rangec := maxc - minc
  let l := sumc / 2
  if minc = maxc then (0, l, 0)
  else
    let s := if l ≤ 0.5 then rangec / sumc else rangec / (2 - maxc - minc)
    let rc := (maxc - r) / rangec
    let gc := (maxc - g) / rangec
    let bc := (maxc - b) / rangec
    let h := if r = maxc then bc - gc
             else if g = maxc then 2 + rc - bc
             else 4 + gc - rc
    let h := _mod (h / 6) 1
    (h, l, s)

/-- The function `_v`, the trapezoidal hue profile used by `HlsToRgb`. -/
def _v (m1 m2 h : ℚ) : ℚ :=
  let h := if h < 0 then h + 1 else h
  let h := if h > 1 then h - 1 else h
  if h < ONE_SIXTH then m1 + (m2 - m1) * 6 * h
  else if h < 1 / 2 then m2
  else if h < TWO_THIRD then m1 + (m2 - m1) * (TWO_THIRD - h) * 6
  else m1

/-- The function `HlsToRgb`. -/
def HlsToRgb (h l s : ℚ) : ℚ × ℚ × ℚ :=
  if s = 0 then (l, l, l)
  else
    let m2 := if l ≤ 0.5 then l * (1 + s) else l + s - l * s
    let m1 := 2 * l - m2
    (_v m1 m2 (h + ONE_THIRD), _v m1 m2 h, _v m1 m2 (h - ONE_THIRD))

/-! ## HSV -/

/-- The function `RgbToHsv`. -/
def RgbToHsv (r g b : ℚ) : ℚ × ℚ × ℚ :=
  let maxc := max3 r g b
  let minc := min3 r g b
  let rangec := maxc - minc
  let v := maxc
  if minc = maxc then (0, 0, v)
  else
    let s := rangec / maxc
    let rc := (maxc - r) / rangec
    let gc := (maxc - g) / rangec
    let bc := (maxc - b) / rangec
    let h := if r = maxc then bc - gc
             else if g = maxc then 2 + rc - bc
             else 4 + gc - rc
    let h := _mod (h / 6) 1
    let h := if h < 0 then h + 1 else h
    (h, s, v)

/-- The function `HsvToRgb`. -/
def HsvToRgb (h s v : ℚ) : ℚ × ℚ × ℚ :=
  if s = 0 then (v, v, v)
  else
    let i : ℤ := goInt (h * 6)
    let f := h * 6 - (i : ℚ)
    let p := v * (1 - s)
    let q := v * (1 - s * f)
    let t := v * (1 - s * (1 - f))
    let i : ℤ := goInt (_mod (i : ℚ) 6)
    match i with
    | 0 => (v, t, p)
    | 1 => (q, v, p)
    | 2 => (p, v, t)
    | 3 => (p, q, v)
    | 4 => (t, p, v)
    | 5 => (v, p, q)
    | _ => (0, 0, 0)

/-! ## Instrumented variants

These are not functions of the source; each is obtained from a source function
as its doc comment says, and is used only to state a property of that function. -/

/-- The function `RgbToHsv` with the statement `if h < 0 { h += 1.0 }` left
out and every other line unchanged: its hue is the value of `_mod(h/6.0, 1.0)`
computed inside `RgbToHsv`. -/
def RgbToHsvNoGuard (r g b : ℚ) : ℚ × ℚ × ℚ :=
  let maxc := max3 r g b
  let minc := min3 r g b
  let rangec := maxc - minc
  let v := maxc
  if minc = maxc then (0, 0, v)
  else
    let s := rangec / maxc
    let rc := (maxc - r) / rangec
    let gc := (maxc - g) / rangec
    let bc := (maxc - b) / rangec
    let h := if r = maxc then bc - gc
             else if g = maxc then 2 + rc - bc
             else 4 + gc - rc
    let h := _mod (h / 6) 1
    (h, s, v)

/-- The divisors that `RgbToHls` evaluates, in program order, on the path it
takes for `(r, g, b)`: `sumc / 2.0`; then, past the `minc == maxc` return,
`rangec / sumc` or `rangec / (2.0 - maxc - minc)`, the three divisions by
`rangec`, `h / 6.0`, and `number / divisor` inside `_mod(h/6.0, 1.0)`. -/
def RgbToHlsDivisors (r g b : ℚ) : List ℚ :=
  let maxc := max3 r g b
  let minc := min3 r g b
  let sumc := maxc + minc
  let rangec := maxc - minc
  let l := sumc / 2
  if minc = maxc then [2]
  else
    let sdiv := if l ≤ 0.5 then sumc else 2 - maxc - minc
    [2, sdiv, rangec, rangec, rangec, 6, 1]

/-- The divisors that `RgbToHsv` evaluates, in program order, on the path it
takes for `(r, g, b)`: none before the `minc == maxc` return; past it,
`rangec / maxc`, the three divisions by `rangec`, `h / 6.0`, and
`number / divisor` inside `_mod(h/6.0, 1.0)`. -/
def RgbToHsvDivisors (r g b : ℚ) : List ℚ :=
  let maxc := max3 r g b
  let minc := min3 r g b
  let rangec := maxc - minc
  if minc = maxc then []
  else [maxc, rangec, rangec, rangec, 6, 1]

/-- The sector index on which `HsvToRgb` switches when `s != 0`:
`int(_mod(float64(int(h*6.0)), 6.0))`. -/
def HsvToRgbSector (h : ℚ) : ℤ :=
  let i : ℤ := goInt (h * 6)
  goInt (_mod (i : ℚ) 6)

/-! ## The same functions on float64

`fl` rounds an exact value to float64.  The functions `RgbToYiqF`, `RgbToHlsF`
and `RgbToHsvF` are `RgbToYiq`, `RgbToHls` and `RgbToHsv` with `fl` applied to
every constant and to the result of every operation. -/

/-- Rounding of a rational to the nearest integer, a tie going to the even
neighbour. -/
def roundHalfEven (q : ℚ) : ℤ :=
  if q - (⌊q⌋ : ℚ) < 1 / 2 then ⌊q⌋
  else if 1 / 2 < q - (⌊q⌋ : ℚ) then ⌊q⌋ + 1
  else if ⌊q⌋ % 2 = 0 then ⌊q⌋ else ⌊q⌋ + 1

/-- The exponent `e` of the binade `2^e ≤ |x| < 2^(e+1)` of `x`, not below
`-1022`, the exponent of the smallest normal float64. -/
def binade (x : ℚ) : ℤ := max (Int.log 2 |x|) (-1022)

/-- The float64 nearest to the exact value `x`, as IEEE 754 rounds the result
of an operation (round to nearest, ties to even): `x` is rounded to a multiple
of `2^(e-52)` with `e` its binade, which is `2^(-1074)` for subnormal `x`.
Values beyond the largest finite float64, infinities, NaN and the sign of zero
are not modelled; none occurs on inputs in `[0, 1]`. -/
def fl (x : ℚ) : ℚ :=
  ((roundHalfEven (x * (2 : ℚ) ^ (52 - binade x)) : ℤ) : ℚ) * (2 : ℚ) ^ (binade x - 52)

/-- The function `_mod` on float64: the source line by line, the result of
every operation rounded by `fl`; `float64(int(x))` is `fl` of the truncation. -/
def _modF (number divisor : ℚ) : ℚ :=
  let quotient : ℚ := fl ((goInt (fl (number / divisor)) : ℤ) : ℚ)
  fl (number - fl (quotient * divisor))

/-- The function `RgbToYiq` on float64: the source line by line, every decimal
constant and the result of every operation rounded by `fl`, one operation at a
time in the order of evaluation of the source. -/
def RgbToYiqF (r g b : ℚ) : ℚ × ℚ × ℚ :=
  let y := fl (fl (fl (fl 0.30 * r) + fl (fl 0.59 * g)) + fl (fl 0.11 * b))
  let i := fl (fl (fl 0.74 * fl (r - y)) - fl (fl 0.27 * fl (b - y)))
  let q := fl (fl (fl 0.48 * fl (r - y)) + fl (fl 0.41 * fl (b - y)))
  (y, i, q)

/-- The function `RgbToHls` on float64: the source line by line, the result of
every operation rounded by `fl`. -/
def RgbToHlsF (r g b : ℚ) : ℚ × ℚ × ℚ :=
  let maxc := max3 r g b
  let minc := min3 r g b
  let sumc := fl (maxc + minc)
  let rangec := fl (maxc - minc)
  let l := fl (sumc / 2)
  if minc = maxc then (0, l, 0)
  else
    let s := if l ≤ 0.5 then fl (rangec / sumc) else fl (rangec / fl (fl (2 - maxc) - minc))
    let rc := fl (fl (maxc - r) / rangec)
    let gc := fl (fl (maxc - g) / rangec)
    let bc := fl (fl (maxc - b) / rangec)
    let h := if r = maxc then fl (bc - gc)
             else if g = maxc then fl (fl (2 + rc) - bc)
             else fl (fl (4 + gc) - rc)
    let h := _modF (fl (h / 6)) 1
    (h, l, s)

/-- The function `RgbToHsv` on float64: the source line by line, the result of
every operation rounded by `fl`, the guard `if h < 0 { h += 1.0 }` included. -/
def RgbToHsvF (r g b : ℚ) : ℚ × ℚ × ℚ :=
  let maxc := max3 r g b
  let minc := min3 r g b
  let rangec := fl (maxc - minc)
  let v := maxc
  if minc = maxc then (0, 0, v)
  else
    let s := fl (rangec / maxc)
    let rc := fl (fl (maxc - r) / rangec)
    let gc := fl (fl (maxc - g) / rangec)
    let bc := fl (fl (maxc - b) / rangec)
    let h := if r = maxc then fl (bc - gc)
             else if g = maxc then fl (fl (2 + rc) - bc)
             else fl (fl (4 + gc) - rc)
    let h := _modF (fl (h / 6)) 1
    let h := if h < 0 then fl (h + 1) else h
    (h, s, v)

/-! ## Truncation and wrapping -/

theorem goInt_eq_of_nonneg (k : ℤ) (x : ℚ) (hk : 0 ≤ k) (h1 : (k : ℚ) ≤ x)
    (h2 : x < (k : ℚ) + 1) : goInt x = k := by
  have hx : (0 : ℚ) ≤ x := le_trans (by exact_mod_cast hk) h1
  unfold goInt
  rw [if_pos hx]
  exact Int.floor_eq_iff.mpr ⟨h1, h2⟩

theorem goInt_eq_zero (x : ℚ) (h1 : -1 < x) (h2 : x < 1) : goInt x = 0 := by
  unfold goInt
  split_ifs with hx
  · exact Int.floor_eq_iff.mpr ⟨by simpa using hx, by simpa using h2⟩
  · push_neg at hx
    exact Int.ceil_eq_iff.mpr ⟨by simpa using h1, by simpa using hx.le⟩

theorem goInt_intCast (k : ℤ) : goInt (k : ℚ) = k := by
  unfold goInt
  split_ifs <;> simp

theorem mod_one_eq_self (x : ℚ) (h1 : -1 < x) (h2 : x < 1) : _mod x 1 = x := by
  unfold _mod
  simp [goInt_eq_zero x h1 h2]

/-! ## YIQ: saturation and linearity -/

/-- C4: `YiqToRgb` saturates.  For every `(y, i, q)` each returned channel lies
in `[0, 1]`, and each channel equals `0` when its linear value is negative, `1`
when its linear value exceeds `1`, and the linear value itself otherwise,
independently per channel. -/
theorem YiqToRgb_saturates (y i q : ℚ) :
    (0 ≤ (YiqToRgb y i q).1 ∧ (YiqToRgb y i q).1 ≤ 1) ∧
    (0 ≤ (YiqToRgb y i q).2.1 ∧ (YiqToRgb y i q).2.1 ≤ 1) ∧
    (0 ≤ (YiqToRgb y i q).2.2 ∧ (YiqToRgb y i q).2.2 ≤ 1) ∧
    (YiqToRgb y i q).1 =
      (if y + 0.9468822170900693 * i + 0.6235565819861433 * q < 0 then 0
       else if 1 < y + 0.9468822170900693 * i + 0.6235565819861433 * q then 1
       else y + 0.9468822170900693 * i + 0.6235565819861433 * q) ∧
    (YiqToRgb y i q).2.1 =
      (if y - 0.27478764629897834 * i - 0.6356910791873801 * q < 0 then 0
       else if 1 < y - 0.27478764629897834 * i - 0.6356910791873801 * q then 1
       else y - 0.27478764629897834 * i - 0.6356910791873801 * q) ∧
    (YiqToRgb y i q).2.2 =
      (if y - 1.1085450346420322 * i + 1.7090069284064666 * q < 0 then 0
       else if 1 < y - 1.1085450346420322 * i + 1.7090069284064666 * q then 1
       else y - 1.1085450346420322 * i + 1.7090069284064666 * q) := by
  simp only [YiqToRgb]
  generalize y + 0.9468822170900693 * i + 0.6235565819861433 * q = r0
  generalize y - 0.27478764629897834 * i - 0.6356910791873801 * q = g0
  generalize y - 1.1085450346420322 * i + 1.7090069284064666 * q = b0
  refine ⟨⟨?_, ?_⟩, ⟨?_, ?_⟩, ⟨?_, ?_⟩, ?_, ?_, ?_⟩ <;> split_ifs <;> linarith

/-- C5: `RgbToYiq` is linear.  For all scalars `a`, `b` and all triples, the
image of a linear combination is, component by component, the same linear
combination of the images. -/
theorem RgbToYiq_linear (a b r1 g1 b1 r2 g2 b2 : ℚ) :
    RgbToYiq (a * r1 + b * r2) (a * g1 + b * g2) (a * b1 + b * b2) =
      (a * (RgbToYiq r1 g1 b1).1 + b * (RgbToYiq r2 g2 b2).1,
       a * (RgbToYiq r1 g1 b1).2.1 + b * (RgbToYiq r2 g2 b2).2.1,
       a * (RgbToYiq r1 g1 b1).2.2 + b * (RgbToYiq r2 g2 b2).2.2) := by
  simp only [RgbToYiq, Prod.mk.injEq]
  refine ⟨?_, ?_, ?_⟩ <;> ring

/-! ## Achromatic and primary colours -/

theorem RgbToHls_gray (c : ℚ) : RgbToHls c c c = (0, c, 0) := by
  simp [RgbToHls, max3, min3]

theorem RgbToHsv_gray (c : ℚ) : RgbToHsv c c c = (0, 0, c) := by
  simp [RgbToHsv, max3, min3]

theorem HlsToRgb_gray (h l : ℚ) : HlsToRgb h l 0 = (l, l, l) := by
  simp [HlsToRgb]

theorem HsvToRgb_gray (h v : ℚ) : HsvToRgb h 0 v = (v, v, v) := by
  simp [HsvToRgb]

/-- C6: achromatic fixed points.  For every `c`, `RgbToHls c c c = (0, c, 0)`
and `RgbToHsv c c c = (0, 0, c)`; for every hue `h` and every `l`, `v`,
`HlsToRgb h l 0 = (l, l, l)` and `HsvToRgb h 0 v = (v, v, v)`. -/
theorem achromatic_fixed_points (c h l v : ℚ) :
    RgbToHls c c c = (0, c, 0) ∧ RgbToHsv c c c = (0, 0, c) ∧
    HlsToRgb h l 0 = (l, l, l) ∧ HsvToRgb h 0 v = (v, v, v) := by
  exact ⟨RgbToHls_gray c, RgbToHsv_gray c, HlsToRgb_gray h l, HsvToRgb_gray h v⟩


/-! ## Normal forms of the forward conversions

The six orderings of a non-gray triple, and what `RgbToHsv` and `RgbToHls`
return on each. -/

theorem rgb_cases (r g b : ℚ) :
    (r = g ∧ g = b) ∨ (b ≤ g ∧ g ≤ r ∧ b < r) ∨ (g < b ∧ b ≤ r) ∨
    (r ≤ b ∧ b ≤ g ∧ r < g) ∨ (b < r ∧ r < g) ∨ (g ≤ r ∧ r < b) ∨ (r < g ∧ g < b) := by
  rcases lt_trichotomy r g with h1 | h1 | h1 <;>
  rcases lt_trichotomy g b with h2 | h2 | h2 <;>
  rcases lt_trichotomy r b with h3 | h3 | h3 <;>
  first
  | (exfalso; linarith)
  | (left; exact ⟨by linarith, by linarith⟩)
  | (right; left; exact ⟨by linarith, by linarith, by linarith⟩)
  | (right; right; left; exact ⟨by linarith, by linarith⟩)
  | (right; right; right; left; exact ⟨by linarith, by linarith, by linarith⟩)
  | (right; right; right; right; left; exact ⟨by linarith, by linarith⟩)
  | (right; right; right; right; right; left; exact ⟨by linarith, by linarith⟩)
  | (right; right; right; right; right; right; exact ⟨by linarith, by linarith⟩)

theorem hsv_wrap (x : ℚ) (h1 : -6 < x) (h2 : x < 6) :
    (if _mod (x / 6) 1 < 0 then _mod (x / 6) 1 + 1 else _mod (x / 6) 1) =
      if x < 0 then x / 6 + 1 else x / 6 := by
  rw [mod_one_eq_self (x / 6) (by linarith) (by linarith)]
  by_cases hx : x < 0
  · rw [if_pos hx, if_pos (by linarith)]
  · rw [if_neg hx, if_neg (by linarith)]

theorem frac_bounds (n d : ℚ) (hd : 0 < d) (h1 : -d ≤ n) (h2 : n ≤ d) :
    -1 ≤ n / d ∧ n / d ≤ 1 := by
  constructor
  · rw [le_div_iff₀ hd]; linarith
  · rw [div_le_iff₀ hd]; linarith

theorem RgbToHsv_rmax_ge (r g b : ℚ) (h1 : b ≤ g) (h2 : g ≤ r) (h3 : b < r) :
    RgbToHsv r g b = (((g - b) / (r - b)) / 6, (r - b) / r, r) := by
  have hmax : max3 r g b = r := by
    unfold max3; rw [max_eq_left (show g ≤ r by linarith), max_eq_left (show b ≤ r by linarith)]
  have hmin : min3 r g b = b := by
    unfold min3; rw [min_eq_right (show g ≤ r by linarith), min_eq_right (show b ≤ g by linarith)]
  have hd0 : 0 < r - b := by linarith
  have hd : r - b ≠ 0 := ne_of_gt hd0
  have hne : b ≠ r := by intro h; linarith
  have hx : (r - b) / (r - b) - (r - g) / (r - b) = (g - b) / (r - b) := by
    field_simp
  obtain ⟨hq1, hq2⟩ := frac_bounds (g - b) (r - b) hd0 (by linarith) (by linarith)
  unfold RgbToHsv
  simp only [hmax, hmin, hne, ↓reduceIte, hx]
  have hq0 : 0 ≤ (g - b) / (r - b) := div_nonneg (by linarith) hd0.le
  rw [hsv_wrap _ (by linarith) (by linarith), if_neg (by linarith)]

theorem RgbToHls_rmax_ge (r g b : ℚ) (h1 : b ≤ g) (h2 : g ≤ r) (h3 : b < r) :
    RgbToHls r g b = (((g - b) / (r - b)) / 6, (r + b) / 2,
      if (r + b) / 2 ≤ 0.5 then (r - b) / (r + b) else (r - b) / (2 - r - b)) := by
  have hmax : max3 r g b = r := by
    unfold max3; rw [max_eq_left (show g ≤ r by linarith), max_eq_left (show b ≤ r by linarith)]
  have hmin : min3 r g b = b := by
    unfold min3; rw [min_eq_right (show g ≤ r by linarith), min_eq_right (show b ≤ g by linarith)]
  have hd0 : 0 < r - b := by linarith
  have hd : r - b ≠ 0 := ne_of_gt hd0
  have hne : b ≠ r := by intro h; linarith
  have hx : (r - b) / (r - b) - (r - g) / (r - b) = (g - b) / (r - b) := by
    field_simp
  obtain ⟨hq1, hq2⟩ := frac_bounds (g - b) (r - b) hd0 (by linarith) (by linarith)
  unfold RgbToHls
  simp only [hmax, hmin, hne, ↓reduceIte, hx]
  rw [mod_one_eq_self _ (by linarith) (by linarith)]

theorem RgbToHsv_rmax_lt (r g b : ℚ) (h1 : g < b) (h2 : b ≤ r) :
    RgbToHsv r g b = (((g - b) / (r - g)) / 6 + 1, (r - g) / r, r) := by
  have hmax : max3 r g b = r := by
    unfold max3; rw [max_eq_left (show g ≤ r by linarith), max_eq_left (show b ≤ r by linarith)]
  have hmin : min3 r g b = g := by
    unfold min3; rw [min_eq_right (show g ≤ r by linarith), min_eq_left (show g ≤ b by linarith)]
  have hd0 : 0 < r - g := by linarith
  have hd : r - g ≠ 0 := ne_of_gt hd0
  have hne : g ≠ r := by intro h; linarith
  have hx : (r - b) / (r - g) - (r - g) / (r - g) = (g - b) / (r - g) := by
    field_simp
  obtain ⟨hq1, hq2⟩ := frac_bounds (g - b) (r - g) hd0 (by linarith) (by linarith)
  unfold RgbToHsv
  simp only [hmax, hmin, hne, ↓reduceIte, hx]
  have hq0 : (g - b) / (r - g) < 0 := div_neg_of_neg_of_pos (by linarith) hd0
  rw [hsv_wrap _ (by linarith) (by linarith), if_pos hq0]

theorem RgbToHls_rmax_lt (r g b : ℚ) (h1 : g < b) (h2 : b ≤ r) :
    RgbToHls r g b = (((g - b) / (r - g)) / 6, (r + g) / 2,
      if (r + g) / 2 ≤ 0.5 then (r - g) / (r + g) else (r - g) / (2 - r - g)) := by
  have hmax : max3 r g b = r := by
    unfold max3; rw [max_eq_left (show g ≤ r by linarith), max_eq_left (show b ≤ r by linarith)]
  have hmin : min3 r g b = g := by
    unfold min3; rw [min_eq_right (show g ≤ r by linarith), min_eq_left (show g ≤ b by linarith)]
  have hd0 : 0 < r - g := by linarith
  have hd : r - g ≠ 0 := ne_of_gt hd0
  have hne : g ≠ r := by intro h; linarith
  have hx : (r - b) / (r - g) - (r - g) / (r - g) = (g - b) / (r - g) := by
    field_simp
  obtain ⟨hq1, hq2⟩ := frac_bounds (g - b) (r - g) hd0 (by linarith) (by linarith)
  unfold RgbToHls
  simp only [hmax, hmin, hne, ↓reduceIte, hx]
  rw [mod_one_eq_self _ (by linarith) (by linarith)]

theorem RgbToHsv_gmax_ge (r g b : ℚ) (h1 : r ≤ b) (h2 : b ≤ g) (h3 : r < g) :
    RgbToHsv r g b = ((2 + (b - r) / (g - r)) / 6, (g - r) / g, g) := by
  have hmax : max3 r g b = g := by
    unfold max3; rw [max_eq_right (show r ≤ g by linarith), max_eq_left (show b ≤ g by linarith)]
  have hmin : min3 r g b = r := by
    unfold min3; rw [min_eq_left (show r ≤ g by linarith), min_eq_left (show r ≤ b by linarith)]
  have hd0 : 0 < g - r := by linarith
  have hd : g - r ≠ 0 := ne_of_gt hd0
  have hne : r ≠ g := by intro h; linarith
  have hx : 2 + (g - r) / (g - r) - (g - b) / (g - r) = 2 + (b - r) / (g - r) := by
    field_simp; ring
  obtain ⟨hq1, hq2⟩ := frac_bounds (b - r) (g - r) hd0 (by linarith) (by linarith)
  unfold RgbToHsv
  simp only [hmax, hmin, hne, (show r ≠ g by intro h; linarith), ↓reduceIte, hx]
  rw [hsv_wrap _ (by linarith) (by linarith), if_neg (by linarith)]

theorem RgbToHls_gmax_ge (r g b : ℚ) (h1 : r ≤ b) (h2 : b ≤ g) (h3 : r < g) :
    RgbToHls r g b = ((2 + (b - r) / (g - r)) / 6, (g + r) / 2,
      if (g + r) / 2 ≤ 0.5 then (g - r) / (g + r) else (g - r) / (2 - g - r)) := by
  have hmax : max3 r g b = g := by
    unfold max3; rw [max_eq_right (show r ≤ g by linarith), max_eq_left (show b ≤ g by linarith)]
  have hmin : min3 r g b = r := by
    unfold min3; rw [min_eq_left (show r ≤ g by linarith), min_eq_left (show r ≤ b by linarith)]
  have hd0 : 0 < g - r := by linarith
  have hd : g - r ≠ 0 := ne_of_gt hd0
  have hne : r ≠ g := by intro h; linarith
  have hx : 2 + (g - r) / (g - r) - (g - b) / (g - r) = 2 + (b - r) / (g - r) := by
    field_simp; ring
  obtain ⟨hq1, hq2⟩ := frac_bounds (b - r) (g - r) hd0 (by linarith) (by linarith)
  unfold RgbToHls
  simp only [hmax, hmin, hne, (show r ≠ g by intro h; linarith), ↓reduceIte, hx]
  rw [mod_one_eq_self _ (by linarith) (by linarith)]

theorem RgbToHsv_gmax_lt (r g b : ℚ) (h1 : b < r) (h2 : r < g) :
    RgbToHsv r g b = ((2 + (b - r) / (g - b)) / 6, (g - b) / g, g) := by
  have hmax : max3 r g b = g := by
    unfold max3; rw [max_eq_right (show r ≤ g by linarith), max_eq_left (show b ≤ g by linarith)]
  have hmin : min3 r g b = b := by
    unfold min3; rw [min_eq_left (show r ≤ g by linarith), min_eq_right (show b ≤ r by linarith)]
  have hd0 : 0 < g - b := by linarith
  have hd : g - b ≠ 0 := ne_of_gt hd0
  have hne : b ≠ g := by intro h; linarith
  have hx : 2 + (g - r) / (g - b) - (g - b) / (g - b) = 2 + (b - r) / (g - b) := by
    field_simp; ring
  obtain ⟨hq1, hq2⟩ := frac_bounds (b - r) (g - b) hd0 (by linarith) (by linarith)
  unfold RgbToHsv
  simp only [hmax, hmin, hne, (show r ≠ g by intro h; linarith), ↓reduceIte, hx]
  rw [hsv_wrap _ (by linarith) (by linarith), if_neg (by linarith)]

theorem RgbToHls_gmax_lt (r g b : ℚ) (h1 : b < r) (h2 : r < g) :
    RgbToHls r g b = ((2 + (b - r) / (g - b)) / 6, (g + b) / 2,
      if (g + b) / 2 ≤ 0.5 then (g - b) / (g + b) else (g - b) / (2 - g - b)) := by
  have hmax : max3 r g b = g := by
    unfold max3; rw [max_eq_right (show r ≤ g by linarith), max_eq_left (show b ≤ g by linarith)]
  have hmin : min3 r g b = b := by
    unfold min3; rw [min_eq_left (show r ≤ g by linarith), min_eq_right (show b ≤ r by linarith)]
  have hd0 : 0 < g - b := by linarith
  have hd : g - b ≠ 0 := ne_of_gt hd0
  have hne : b ≠ g := by intro h; linarith
  have hx : 2 + (g - r) / (g - b) - (g - b) / (g - b) = 2 + (b - r) / (g - b) := by
    field_simp; ring
  obtain ⟨hq1, hq2⟩ := frac_bounds (b - r) (g - b) hd0 (by linarith) (by linarith)
  unfold RgbToHls
  simp only [hmax, hmin, hne, (show r ≠ g by intro h; linarith), ↓reduceIte, hx]
  rw [mod_one_eq_self _ (by linarith) (by linarith)]

theorem RgbToHsv_bmax_ge (r g b : ℚ) (h1 : g ≤ r) (h2 : r < b) :
    RgbToHsv r g b = ((4 + (r - g) / (b - g)) / 6, (b - g) / b, b) := by
  have hmax : max3 r g b = b := by
    unfold max3; rw [max_eq_left (show g ≤ r by linarith), max_eq_right (show r ≤ b by linarith)]
  have hmin : min3 r g b = g := by
    unfold min3; rw [min_eq_right (show g ≤ r by linarith), min_eq_left (show g ≤ b by linarith)]
  have hd0 : 0 < b - g := by linarith
  have hd : b - g ≠ 0 := ne_of_gt hd0
  have hne : g ≠ b := by intro h; linarith
  have hx : 4 + (b - g) / (b - g) - (b - r) / (b - g) = 4 + (r - g) / (b - g) := by
    field_simp; ring
  obtain ⟨hq1, hq2⟩ := frac_bounds (r - g) (b - g) hd0 (by linarith) (by linarith)
  unfold RgbToHsv
  simp only [hmax, hmin, hne, (show r ≠ b by intro h; linarith), (show g ≠ b by intro h; linarith), ↓reduceIte, hx]
  rw [hsv_wrap _ (by linarith) (by linarith), if_neg (by linarith)]

theorem RgbToHls_bmax_ge (r g b : ℚ) (h1 : g ≤ r) (h2 : r < b) :
    RgbToHls r g b = ((4 + (r - g) / (b - g)) / 6, (b + g) / 2,
      if (b + g) / 2 ≤ 0.5 then (b - g) / (b + g) else (b - g) / (2 - b - g)) := by
  have hmax : max3 r g b = b := by
    unfold max3; rw [max_eq_left (show g ≤ r by linarith), max_eq_right (show r ≤ b by linarith)]
  have hmin : min3 r g b = g := by
    unfold min3; rw [min_eq_right (show g ≤ r by linarith), min_eq_left (show g ≤ b by linarith)]
  have hd0 : 0 < b - g := by linarith
  have hd : b - g ≠ 0 := ne_of_gt hd0
  have hne : g ≠ b := by intro h; linarith
  have hx : 4 + (b - g) / (b - g) - (b - r) / (b - g) = 4 + (r - g) / (b - g) := by
    field_simp; ring
  obtain ⟨hq1, hq2⟩ := frac_bounds (r - g) (b - g) hd0 (by linarith) (by linarith)
  unfold RgbToHls
  simp only [hmax, hmin, hne, (show r ≠ b by intro h; linarith), (show g ≠ b by intro h; linarith), ↓reduceIte, hx]
  rw [mod_one_eq_self _ (by linarith) (by linarith)]

theorem RgbToHsv_bmax_lt (r g b : ℚ) (h1 : r < g) (h2 : g < b) :
    RgbToHsv r g b = ((4 + (r - g) / (b - r)) / 6, (b - r) / b, b) := by
  have hmax : max3 r g b = b := by
    unfold max3; rw [max_eq_right (show r ≤ g by linarith), max_eq_right (show g ≤ b by linarith)]
  have hmin : min3 r g b = r := by
    unfold min3; rw [min_eq_left (show r ≤ g by linarith), min_eq_left (show r ≤ b by linarith)]
  have hd0 : 0 < b - r := by linarith
  have hd : b - r ≠ 0 := ne_of_gt hd0
  have hne : r ≠ b := by intro h; linarith
  have hx : 4 + (b - g) / (b - r) - (b - r) / (b - r) = 4 + (r - g) / (b - r) := by
    field_simp; ring
  obtain ⟨hq1, hq2⟩ := frac_bounds (r - g) (b - r) hd0 (by linarith) (by linarith)
  unfold RgbToHsv
  simp only [hmax, hmin, hne, (show r ≠ b by intro h; linarith), (show g ≠ b by intro h; linarith), ↓reduceIte, hx]
  rw [hsv_wrap _ (by linarith) (by linarith), if_neg (by linarith)]

theorem RgbToHls_bmax_lt (r g b : ℚ) (h1 : r < g) (h2 : g < b) :
    RgbToHls r g b = ((4 + (r - g) / (b - r)) / 6, (b + r) / 2,
      if (b + r) / 2 ≤ 0.5 then (b - r) / (b + r) else (b - r) / (2 - b - r)) := by
  have hmax : max3 r g b = b := by
    unfold max3; rw [max_eq_right (show r ≤ g by linarith), max_eq_right (show g ≤ b by linarith)]
  have hmin : min3 r g b = r := by
    unfold min3; rw [min_eq_left (show r ≤ g by linarith), min_eq_left (show r ≤ b by linarith)]
  have hd0 : 0 < b - r := by linarith
  have hd : b - r ≠ 0 := ne_of_gt hd0
  have hne : r ≠ b := by intro h; linarith
  have hx : 4 + (b - g) / (b - r) - (b - r) / (b - r) = 4 + (r - g) / (b - r) := by
    field_simp; ring
  obtain ⟨hq1, hq2⟩ := frac_bounds (r - g) (b - r) hd0 (by linarith) (by linarith)
  unfold RgbToHls
  simp only [hmax, hmin, hne, (show r ≠ b by intro h; linarith), (show g ≠ b by intro h; linarith), ↓reduceIte, hx]
  rw [mod_one_eq_self _ (by linarith) (by linarith)]

theorem sector_index (k : ℤ) (hk0 : 0 ≤ k) (hk5 : k ≤ 5) : goInt (_mod (k : ℚ) 6) = k := by
  have h0 : (0 : ℚ) ≤ (k : ℚ) := by exact_mod_cast hk0
  have h5 : (k : ℚ) ≤ 5 := by exact_mod_cast hk5
  have hq : goInt ((k : ℚ) / 6) = 0 :=
    goInt_eq_zero _ (by linarith [div_nonneg h0 (by norm_num : (0 : ℚ) ≤ 6)])
      (by rw [div_lt_one (by norm_num)]; linarith)
  unfold _mod
  simp only [hq]
  simp [goInt_intCast]

theorem RgbToHsv_value (r g b : ℚ) : (RgbToHsv r g b).2.2 = max3 r g b := by
  simp only [RgbToHsv]
  split_ifs <;> rfl

/-- C7: HSV primary and secondary hues.  For every intensity `0 < c ≤ 1`,
`RgbToHsv` sends red `(c,0,0)` to hue `0`, yellow `(c,c,0)` to `1/6`, green
`(0,c,0)` to `1/3`, blue `(0,0,c)` to `2/3` and magenta `(c,0,c)` to `5/6`,
each with saturation `1` and value `c`. -/
theorem RgbToHsv_primaries (c : ℚ) (h0 : 0 < c) (_h1 : c ≤ 1) :
    RgbToHsv c 0 0 = (0, 1, c) ∧ RgbToHsv c c 0 = (1 / 6, 1, c) ∧
    RgbToHsv 0 c 0 = (1 / 3, 1, c) ∧ RgbToHsv 0 0 c = (2 / 3, 1, c) ∧
    RgbToHsv c 0 c = (5 / 6, 1, c) := by
  have hc : c ≠ 0 := ne_of_gt h0
  refine ⟨?_, ?_, ?_, ?_, ?_⟩
  · rw [RgbToHsv_rmax_ge c 0 0 le_rfl h0.le h0]
    simp [hc]
  · rw [RgbToHsv_rmax_ge c c 0 h0.le le_rfl h0]
    simp [hc]
  · rw [RgbToHsv_gmax_ge 0 c 0 le_rfl h0.le h0]
    simp [hc]; norm_num
  · rw [RgbToHsv_bmax_ge 0 0 c le_rfl h0]
    simp [hc]; norm_num
  · rw [RgbToHsv_rmax_lt c 0 c h0 le_rfl]
    simp [hc]; norm_num

/-- Witness for C7 at `c = 1/2`. -/
theorem RgbToHsv_primaries_witness :
    RgbToHsv (1 / 2) 0 0 = (0, 1, 1 / 2) ∧ RgbToHsv (1 / 2) (1 / 2) 0 = (1 / 6, 1, 1 / 2) ∧
    RgbToHsv 0 (1 / 2) 0 = (1 / 3, 1, 1 / 2) ∧ RgbToHsv 0 0 (1 / 2) = (2 / 3, 1, 1 / 2) ∧
    RgbToHsv (1 / 2) 0 (1 / 2) = (5 / 6, 1, 1 / 2) :=
  RgbToHsv_primaries (1 / 2) (by norm_num) (by norm_num)

/-- C8: HLS primary hues.  For every intensity `0 < c ≤ 1`, `RgbToHls` sends
red `(c,0,0)` to hue `0`, green `(0,c,0)` to `1/3` and blue `(0,0,c)` to `2/3`,
each with lightness `c/2` and saturation `1`. -/
theorem RgbToHls_primaries (c : ℚ) (h0 : 0 < c) (h1 : c ≤ 1) :
    RgbToHls c 0 0 = (0, c / 2, 1) ∧ RgbToHls 0 c 0 = (1 / 3, c / 2, 1) ∧
    RgbToHls 0 0 c = (2 / 3, c / 2, 1) := by
  have hc : c ≠ 0 := ne_of_gt h0
  have hl : c / 2 ≤ 0.5 := by norm_num; linarith
  refine ⟨?_, ?_, ?_⟩
  · rw [RgbToHls_rmax_ge c 0 0 le_rfl h0.le h0]
    simp only [sub_zero, add_zero, zero_div, if_pos hl, div_self hc]
  · rw [RgbToHls_gmax_ge 0 c 0 le_rfl h0.le h0]
    simp only [sub_zero, add_zero, zero_div, if_pos hl, div_self hc]
    norm_num
  · rw [RgbToHls_bmax_ge 0 0 c le_rfl h0]
    simp only [sub_zero, add_zero, zero_div, if_pos hl, div_self hc]
    norm_num

/-- Witness for C8 at `c = 1`, the three cases of the test table. -/
theorem RgbToHls_primaries_witness :
    RgbToHls 1 0 0 = (0, 1 / 2, 1) ∧ RgbToHls 0 1 0 = (1 / 3, 1 / 2, 1) ∧
    RgbToHls 0 0 1 = (2 / 3, 1 / 2, 1) :=
  RgbToHls_primaries 1 (by norm_num) (by norm_num)

/-! ## Ranges of the forward conversions -/

theorem RgbToHsv_range_aux (r g b : ℚ) (hr0 : 0 ≤ r) (hr1 : r ≤ 1) (hg0 : 0 ≤ g)
    (hg1 : g ≤ 1) (hb0 : 0 ≤ b) (hb1 : b ≤ 1) :
    (0 ≤ (RgbToHsv r g b).1 ∧ (RgbToHsv r g b).1 < 1) ∧
    (0 ≤ (RgbToHsv r g b).2.1 ∧ (RgbToHsv r g b).2.1 ≤ 1) ∧
    (RgbToHsv r g b).2.2 = max3 r g b ∧
    (0 ≤ (RgbToHsv r g b).2.2 ∧ (RgbToHsv r g b).2.2 ≤ 1) := by
  rcases rgb_cases r g b with ⟨h1, h2⟩ | ⟨h1, h2, h3⟩ | ⟨h1, h2⟩ | ⟨h1, h2, h3⟩ | ⟨h1, h2⟩ |
    ⟨h1, h2⟩ | ⟨h1, h2⟩
  · subst h1; subst h2
    rw [RgbToHsv_gray r]
    simp [max3, hr0, hr1]
  · have hv := RgbToHsv_value r g b
    rw [RgbToHsv_rmax_ge r g b h1 h2 h3] at hv ⊢
    have hd : 0 < r - b := by linarith
    have hM : 0 < r := by linarith
    obtain ⟨q1, q2⟩ := frac_bounds (g - b) (r - b) hd (by linarith) (by linarith)
    have q0 : 0 ≤ (g - b) / (r - b) := div_nonneg (by linarith) hd.le
    refine ⟨⟨?_, ?_⟩, ⟨?_, ?_⟩, hv, ?_, ?_⟩
    · simp only; linarith
    · simp only; linarith
    · exact div_nonneg hd.le hM.le
    · simp only; rw [div_le_one hM]; linarith
    · exact hr0
    · exact hr1
  · have hv := RgbToHsv_value r g b
    rw [RgbToHsv_rmax_lt r g b h1 h2] at hv ⊢
    have hd : 0 < r - g := by linarith
    have hM : 0 < r := by linarith
    obtain ⟨q1, q2⟩ := frac_bounds (g - b) (r - g) hd (by linarith) (by linarith)
    have q0 : (g - b) / (r - g) < 0 := div_neg_of_neg_of_pos (by linarith) hd
    refine ⟨⟨?_, ?_⟩, ⟨?_, ?_⟩, hv, ?_, ?_⟩
    · simp only; linarith
    · simp only; linarith
    · exact div_nonneg hd.le hM.le
    · simp only; rw [div_le_one hM]; linarith
    · exact hr0
    · exact hr1
  · have hv := RgbToHsv_value r g b
    rw [RgbToHsv_gmax_ge r g b h1 h2 h3] at hv ⊢
    have hd : 0 < g - r := by linarith
    have hM : 0 < g := by linarith
    obtain ⟨q1, q2⟩ := frac_bounds (b - r) (g - r) hd (by linarith) (by linarith)
    refine ⟨⟨?_, ?_⟩, ⟨?_, ?_⟩, hv, ?_, ?_⟩
    · simp only; linarith
    · simp only; linarith
    · exact div_nonneg hd.le hM.le
    · simp only; rw [div_le_one hM]; linarith
    · exact hg0
    · exact hg1
  · have hv := RgbToHsv_value r g b
    rw [RgbToHsv_gmax_lt r g b h1 h2] at hv ⊢
    have hd : 0 < g - b := by linarith
    have hM : 0 < g := by linarith
    obtain ⟨q1, q2⟩ := frac_bounds (b - r) (g - b) hd (by linarith) (by linarith)
    refine ⟨⟨?_, ?_⟩, ⟨?_, ?_⟩, hv, ?_, ?_⟩
    · simp only; linarith
    · simp only; linarith
    · exact div_nonneg hd.le hM.le
    · simp only; rw [div_le_one hM]; linarith
    · exact hg0
    · exact hg1
  · have hv := RgbToHsv_value r g b
    rw [RgbToHsv_bmax_ge r g b h1 h2] at hv ⊢
    have hd : 0 < b - g := by linarith
    have hM : 0 < b := by linarith
    obtain ⟨q1, q2⟩ := frac_bounds (r - g) (b - g) hd (by linarith) (by linarith)
    refine ⟨⟨?_, ?_⟩, ⟨?_, ?_⟩, hv, ?_, ?_⟩
    · simp only; linarith
    · simp only; linarith
    · exact div_nonneg hd.le hM.le
    · simp only; rw [div_le_one hM]; linarith
    · exact hb0
    · exact hb1
  · have hv := RgbToHsv_value r g b
    rw [RgbToHsv_bmax_lt r g b h1 h2] at hv ⊢
    have hd : 0 < b - r := by linarith
    have hM : 0 < b := by linarith
    obtain ⟨q1, q2⟩ := frac_bounds (r - g) (b - r) hd (by linarith) (by linarith)
    refine ⟨⟨?_, ?_⟩, ⟨?_, ?_⟩, hv, ?_, ?_⟩
    · simp only; linarith
    · simp only; linarith
    · exact div_nonneg hd.le hM.le
    · simp only; rw [div_le_one hM]; linarith
    · exact hb0
    · exact hb1

/-- C10: the hue returned by `RgbToHls` is not always in `[0, 1)`.  On the
purple `(1/2, 0, 1/2)`, a valid RGB triple, `RgbToHls` returns the hue `-1/6`,
which is negative, whereas `RgbToHsv` returns `5/6` on the same input. -/
theorem RgbToHls_purple_hue_negative :
    RgbToHls (1 / 2) 0 (1 / 2) = (-1 / 6, 1 / 4, 1) ∧ (RgbToHls (1 / 2) 0 (1 / 2)).1 < 0 ∧
    (RgbToHsv (1 / 2) 0 (1 / 2)).1 = 5 / 6 := by
  rw [RgbToHls_rmax_lt (1 / 2) 0 (1 / 2) (by norm_num) le_rfl,
    RgbToHsv_rmax_lt (1 / 2) 0 (1 / 2) (by norm_num) le_rfl]
  norm_num

/-! ## YIQ round trip -/

theorem clamp_close (x c e : ℚ) (hc0 : 0 ≤ c) (hc1 : c ≤ 1) (h : |x - c| ≤ e) :
    |(if (if x < 0 then 0 else x) > 1 then 1 else (if x < 0 then 0 else x)) - c| ≤ e := by
  rw [abs_le] at h ⊢
  obtain ⟨h1, h2⟩ := h
  constructor <;> split_ifs <;> linarith

theorem yiq_residual_r (r g b : ℚ) :
    (RgbToYiq r g b).1 + 0.9468822170900693 * (RgbToYiq r g b).2.1
      + 0.6235565819861433 * (RgbToYiq r g b).2.2 - r =
      (21 / 625000000000000000) * r + (-1593 / 25000000000000000000) * g
      + (753 / 25000000000000000000) * b := by
  simp only [RgbToYiq]
  ring

theorem yiq_residual_g (r g b : ℚ) :
    (RgbToYiq r g b).1 - 0.27478764629897834 * (RgbToYiq r g b).2.1
      - 0.6356910791873801 * (RgbToYiq r g b).2.2 - g =
      (163 / 12500000000000000000) * r + (-247 / 15625000000000000000) * g
      + (173 / 62500000000000000000) * b := by
  simp only [RgbToYiq]
  ring

theorem yiq_residual_b (r g b : ℚ) :
    (RgbToYiq r g b).1 - 1.1085450346420322 * (RgbToYiq r g b).2.1
      + 1.7090069284064666 * (RgbToYiq r g b).2.2 - b =
      (49 / 500000000000000000) * r + (-413 / 5000000000000000000) * g
      + (-77 / 5000000000000000000) * b := by
  simp only [RgbToYiq]
  ring

/-- C3: YIQ round trip.  For every RGB triple with each component in `[0, 1]`,
each channel of `YiqToRgb (RgbToYiq r g b)` differs from the original channel
by at most `1e-6`: the linear part is off by less than `2e-16`, and clamping
to `[0, 1]` cannot move a channel away from a value inside `[0, 1]`. -/
theorem yiq_round_trip (r g b : ℚ) (hr0 : 0 ≤ r) (hr1 : r ≤ 1) (hg0 : 0 ≤ g) (hg1 : g ≤ 1)
    (hb0 : 0 ≤ b) (hb1 : b ≤ 1) :
    |(YiqToRgb (RgbToYiq r g b).1 (RgbToYiq r g b).2.1 (RgbToYiq r g b).2.2).1 - r|
      ≤ 1 / 1000000 ∧
    |(YiqToRgb (RgbToYiq r g b).1 (RgbToYiq r g b).2.1 (RgbToYiq r g b).2.2).2.1 - g|
      ≤ 1 / 1000000 ∧
    |(YiqToRgb (RgbToYiq r g b).1 (RgbToYiq r g b).2.1 (RgbToYiq r g b).2.2).2.2 - b|
      ≤ 1 / 1000000 := by
  have er := yiq_residual_r r g b
  have eg := yiq_residual_g r g b
  have eb := yiq_residual_b r g b
  generalize (RgbToYiq r g b).1 = y at er eg eb ⊢
  generalize (RgbToYiq r g b).2.1 = i at er eg eb ⊢
  generalize (RgbToYiq r g b).2.2 = q at er eg eb ⊢
  simp only [YiqToRgb]
  refine ⟨clamp_close _ r _ hr0 hr1 ?_, clamp_close _ g _ hg0 hg1 ?_,
    clamp_close _ b _ hb0 hb1 ?_⟩
  · rw [er, abs_le]; constructor <;> linarith
  · rw [eg, abs_le]; constructor <;> linarith
  · rw [eb, abs_le]; constructor <;> linarith

/-- Witness for C3 at pure red `(1, 0, 0)`. -/
theorem yiq_round_trip_witness :
    |(YiqToRgb (RgbToYiq 1 0 0).1 (RgbToYiq 1 0 0).2.1 (RgbToYiq 1 0 0).2.2).1 - 1|
      ≤ 1 / 1000000 ∧
    |(YiqToRgb (RgbToYiq 1 0 0).1 (RgbToYiq 1 0 0).2.1 (RgbToYiq 1 0 0).2.2).2.1 - 0|
      ≤ 1 / 1000000 ∧
    |(YiqToRgb (RgbToYiq 1 0 0).1 (RgbToYiq 1 0 0).2.1 (RgbToYiq 1 0 0).2.2).2.2 - 0|
      ≤ 1 / 1000000 :=
  yiq_round_trip 1 0 0 (by norm_num) (by norm_num) (by norm_num) (by norm_num) (by norm_num)
    (by norm_num)

/-! ## Sectors of `HsvToRgb` -/

theorem HsvToRgb_sector0 (h s v : ℚ) (hs : s ≠ 0) (h1 : 0 ≤ h * 6) (h2 : h * 6 < 1) :
    HsvToRgb h s v = (v, v * (1 - s * (1 - (h * 6 - 0))), v * (1 - s)) := by
  have e1 : goInt (h * 6) = 0 :=
    goInt_eq_of_nonneg 0 _ (by norm_num) (by push_cast; linarith) (by push_cast; linarith)
  have e2 : goInt (_mod ((0 : ℤ) : ℚ) 6) = 0 := sector_index 0 (by norm_num) (by norm_num)
  unfold HsvToRgb
  rw [if_neg hs]
  simp only [e1, e2]
  push_cast
  rfl

theorem HsvToRgb_sector1 (h s v : ℚ) (hs : s ≠ 0) (h1 : 1 ≤ h * 6) (h2 : h * 6 < 2) :
    HsvToRgb h s v = (v * (1 - s * (h * 6 - 1)), v, v * (1 - s)) := by
  have e1 : goInt (h * 6) = 1 :=
    goInt_eq_of_nonneg 1 _ (by norm_num) (by push_cast; linarith) (by push_cast; linarith)
  have e2 : goInt (_mod ((1 : ℤ) : ℚ) 6) = 1 := sector_index 1 (by norm_num) (by norm_num)
  unfold HsvToRgb
  rw [if_neg hs]
  simp only [e1, e2]
  push_cast
  rfl

theorem HsvToRgb_sector2 (h s v : ℚ) (hs : s ≠ 0) (h1 : 2 ≤ h * 6) (h2 : h * 6 < 3) :
    HsvToRgb h s v = (v * (1 - s), v, v * (1 - s * (1 - (h * 6 - 2)))) := by
  have e1 : goInt (h * 6) = 2 :=
    goInt_eq_of_nonneg 2 _ (by norm_num) (by push_cast; linarith) (by push_cast; linarith)
  have e2 : goInt (_mod ((2 : ℤ) : ℚ) 6) = 2 := sector_index 2 (by norm_num) (by norm_num)
  unfold HsvToRgb
  rw [if_neg hs]
  simp only [e1, e2]
  push_cast
  rfl

theorem HsvToRgb_sector3 (h s v : ℚ) (hs : s ≠ 0) (h1 : 3 ≤ h * 6) (h2 : h * 6 < 4) :
    HsvToRgb h s v = (v * (1 - s), v * (1 - s * (h * 6 - 3)), v) := by
  have e1 : goInt (h * 6) = 3 :=
    goInt_eq_of_nonneg 3 _ (by norm_num) (by push_cast; linarith) (by push_cast; linarith)
  have e2 : goInt (_mod ((3 : ℤ) : ℚ) 6) = 3 := sector_index 3 (by norm_num) (by norm_num)
  unfold HsvToRgb
  rw [if_neg hs]
  simp only [e1, e2]
  push_cast
  rfl

theorem HsvToRgb_sector4 (h s v : ℚ) (hs : s ≠ 0) (h1 : 4 ≤ h * 6) (h2 : h * 6 < 5) :
    HsvToRgb h s v = (v * (1 - s * (1 - (h * 6 - 4))), v * (1 - s), v) := by
  have e1 : goInt (h * 6) = 4 :=
    goInt_eq_of_nonneg 4 _ (by norm_num) (by push_cast; linarith) (by push_cast; linarith)
  have e2 : goInt (_mod ((4 : ℤ) : ℚ) 6) = 4 := sector_index 4 (by norm_num) (by norm_num)
  unfold HsvToRgb
  rw [if_neg hs]
  simp only [e1, e2]
  push_cast
  rfl

theorem HsvToRgb_sector5 (h s v : ℚ) (hs : s ≠ 0) (h1 : 5 ≤ h * 6) (h2 : h * 6 < 6) :
    HsvToRgb h s v = (v, v * (1 - s), v * (1 - s * (h * 6 - 5))) := by
  have e1 : goInt (h * 6) = 5 :=
    goInt_eq_of_nonneg 5 _ (by norm_num) (by push_cast; linarith) (by push_cast; linarith)
  have e2 : goInt (_mod ((5 : ℤ) : ℚ) 6) = 5 := sector_index 5 (by norm_num) (by norm_num)
  unfold HsvToRgb
  rw [if_neg hs]
  simp only [e1, e2]
  push_cast
  rfl

theorem frac_strict (n d : ℚ) (hd : 0 < d) (h1 : -d < n) (h2 : n < d) :
    -1 < n / d ∧ n / d < 1 := by
  constructor
  · rw [lt_div_iff₀ hd]; linarith
  · rw [div_lt_iff₀ hd]; linarith

/-! ## HSV round trip -/

theorem hsv_round_trip_rmax_ge (r g b : ℚ) (hb0 : 0 ≤ b) (h1 : b ≤ g) (h2 : g ≤ r) (h3 : b < r) :
    HsvToRgb (RgbToHsv r g b).1 (RgbToHsv r g b).2.1 (RgbToHsv r g b).2.2 = (r, g, b) := by
  rw [RgbToHsv_rmax_ge r g b h1 h2 h3]
  have hd : 0 < r - b := by linarith
  have hM : 0 < r := by linarith
  have hs : (r - b) / r ≠ 0 := div_ne_zero hd.ne' hM.ne'
  have q0 : 0 ≤ (g - b) / (r - b) := div_nonneg (by linarith) hd.le
  rcases lt_or_eq_of_le h2 with h4 | h4
  · have q1 : (g - b) / (r - b) < 1 := (div_lt_one hd).mpr (by linarith)
    rw [HsvToRgb_sector0 _ _ _ hs (by linarith) (by linarith)]
    refine Prod.ext ?_ (Prod.ext ?_ ?_) <;> dsimp only <;>
      first | rfl | (field_simp; ring) | field_simp
  · subst h4
    have q1 : (g - b) / (g - b) = 1 := div_self hd.ne'
    rw [HsvToRgb_sector1 _ _ _ hs (by simp only [q1]; norm_num) (by simp only [q1]; norm_num)]
    simp only [q1]
    refine Prod.ext ?_ (Prod.ext ?_ ?_) <;> dsimp only <;>
      first | rfl | field_simp

theorem hsv_round_trip_rmax_lt (r g b : ℚ) (hg0 : 0 ≤ g) (h1 : g < b) (h2 : b ≤ r) :
    HsvToRgb (RgbToHsv r g b).1 (RgbToHsv r g b).2.1 (RgbToHsv r g b).2.2 = (r, g, b) := by
  rw [RgbToHsv_rmax_lt r g b h1 h2]
  have hd : 0 < r - g := by linarith
  have hM : 0 < r := by linarith
  have hs : (r - g) / r ≠ 0 := div_ne_zero hd.ne' hM.ne'
  obtain ⟨q1, q2⟩ := frac_bounds (g - b) (r - g) hd (by linarith) (by linarith)
  have q0 : (g - b) / (r - g) < 0 := div_neg_of_neg_of_pos (by linarith) hd
  rw [HsvToRgb_sector5 _ _ _ hs (by linarith) (by linarith)]
  refine Prod.ext ?_ (Prod.ext ?_ ?_) <;> dsimp only <;>
    first | rfl | (field_simp; ring) | field_simp

theorem hsv_round_trip_gmax_ge (r g b : ℚ) (hr0 : 0 ≤ r) (h1 : r ≤ b) (h2 : b ≤ g) (h3 : r < g) :
    HsvToRgb (RgbToHsv r g b).1 (RgbToHsv r g b).2.1 (RgbToHsv r g b).2.2 = (r, g, b) := by
  rw [RgbToHsv_gmax_ge r g b h1 h2 h3]
  have hd : 0 < g - r := by linarith
  have hM : 0 < g := by linarith
  have hs : (g - r) / g ≠ 0 := div_ne_zero hd.ne' hM.ne'
  have q0 : 0 ≤ (b - r) / (g - r) := div_nonneg (by linarith) hd.le
  rcases lt_or_eq_of_le h2 with h4 | h4
  · have q1 : (b - r) / (g - r) < 1 := (div_lt_one hd).mpr (by linarith)
    rw [HsvToRgb_sector2 _ _ _ hs (by linarith) (by linarith)]
    refine Prod.ext ?_ (Prod.ext ?_ ?_) <;> dsimp only <;>
      first | rfl | (field_simp; ring) | field_simp
  · subst h4
    have q1 : (b - r) / (b - r) = 1 := div_self hd.ne'
    rw [HsvToRgb_sector3 _ _ _ hs (by simp only [q1]; norm_num) (by simp only [q1]; norm_num)]
    simp only [q1]
    refine Prod.ext ?_ (Prod.ext ?_ ?_) <;> dsimp only <;>
      first | rfl | (field_simp; ring) | field_simp

theorem hsv_round_trip_gmax_lt (r g b : ℚ) (hb0 : 0 ≤ b) (h1 : b < r) (h2 : r < g) :
    HsvToRgb (RgbToHsv r g b).1 (RgbToHsv r g b).2.1 (RgbToHsv r g b).2.2 = (r, g, b) := by
  rw [RgbToHsv_gmax_lt r g b h1 h2]
  have hd : 0 < g - b := by linarith
  have hM : 0 < g := by linarith
  have hs : (g - b) / g ≠ 0 := div_ne_zero hd.ne' hM.ne'
  obtain ⟨q1, q2⟩ := frac_strict (b - r) (g - b) hd (by linarith) (by linarith)
  have q0 : (b - r) / (g - b) < 0 := div_neg_of_neg_of_pos (by linarith) hd
  rw [HsvToRgb_sector1 _ _ _ hs (by linarith) (by linarith)]
  refine Prod.ext ?_ (Prod.ext ?_ ?_) <;> dsimp only <;>
    first | rfl | (field_simp; ring) | field_simp

theorem hsv_round_trip_bmax_ge (r g b : ℚ) (hg0 : 0 ≤ g) (h1 : g ≤ r) (h2 : r < b) :
    HsvToRgb (RgbToHsv r g b).1 (RgbToHsv r g b).2.1 (RgbToHsv r g b).2.2 = (r, g, b) := by
  rw [RgbToHsv_bmax_ge r g b h1 h2]
  have hd : 0 < b - g := by linarith
  have hM : 0 < b := by linarith
  have hs : (b - g) / b ≠ 0 := div_ne_zero hd.ne' hM.ne'
  obtain ⟨q1, q2⟩ := frac_bounds (r - g) (b - g) hd (by linarith) (by linarith)
  have q0 : 0 ≤ (r - g) / (b - g) := div_nonneg (by linarith) hd.le
  have q3 : (r - g) / (b - g) < 1 := (div_lt_one hd).mpr (by linarith)
  rw [HsvToRgb_sector4 _ _ _ hs (by linarith) (by linarith)]
  refine Prod.ext ?_ (Prod.ext ?_ ?_) <;> dsimp only <;>
    first | rfl | (field_simp; ring) | field_simp

theorem hsv_round_trip_bmax_lt (r g b : ℚ) (hr0 : 0 ≤ r) (h1 : r < g) (h2 : g < b) :
    HsvToRgb (RgbToHsv r g b).1 (RgbToHsv r g b).2.1 (RgbToHsv r g b).2.2 = (r, g, b) := by
  rw [RgbToHsv_bmax_lt r g b h1 h2]
  have hd : 0 < b - r := by linarith
  have hM : 0 < b := by linarith
  have hs : (b - r) / b ≠ 0 := div_ne_zero hd.ne' hM.ne'
  obtain ⟨q1, q2⟩ := frac_strict (r - g) (b - r) hd (by linarith) (by linarith)
  have q0 : (r - g) / (b - r) < 0 := div_neg_of_neg_of_pos (by linarith) hd
  rw [HsvToRgb_sector3 _ _ _ hs (by linarith) (by linarith)]
  refine Prod.ext ?_ (Prod.ext ?_ ?_) <;> dsimp only <;>
    first | rfl | (field_simp; ring) | field_simp

theorem hsv_round_trip_eq (r g b : ℚ) (hr0 : 0 ≤ r) (hg0 : 0 ≤ g) (hb0 : 0 ≤ b) :
    HsvToRgb (RgbToHsv r g b).1 (RgbToHsv r g b).2.1 (RgbToHsv r g b).2.2 = (r, g, b) := by
  rcases rgb_cases r g b with ⟨h1, h2⟩ | ⟨h1, h2, h3⟩ | ⟨h1, h2⟩ | ⟨h1, h2, h3⟩ | ⟨h1, h2⟩ |
    ⟨h1, h2⟩ | ⟨h1, h2⟩
  · subst h1; subst h2
    rw [RgbToHsv_gray r, HsvToRgb_gray]
  · exact hsv_round_trip_rmax_ge r g b hb0 h1 h2 h3
  · exact hsv_round_trip_rmax_lt r g b hg0 h1 h2
  · exact hsv_round_trip_gmax_ge r g b hr0 h1 h2 h3
  · exact hsv_round_trip_gmax_lt r g b hb0 h1 h2
  · exact hsv_round_trip_bmax_ge r g b hg0 h1 h2
  · exact hsv_round_trip_bmax_lt r g b hr0 h1 h2

/-- C1: HSV round trip.  For every RGB triple with each component in `[0, 1]`,
`HsvToRgb` applied to the result of `RgbToHsv` gives back the triple exactly
(in exact arithmetic), hence within `1e-6` on each channel; gray triples and
triples where two channels share the maximum are included. -/
theorem hsv_round_trip (r g b : ℚ) (hr0 : 0 ≤ r) (_hr1 : r ≤ 1) (hg0 : 0 ≤ g) (_hg1 : g ≤ 1)
    (hb0 : 0 ≤ b) (_hb1 : b ≤ 1) :
    HsvToRgb (RgbToHsv r g b).1 (RgbToHsv r g b).2.1 (RgbToHsv r g b).2.2 = (r, g, b) ∧
    |(HsvToRgb (RgbToHsv r g b).1 (RgbToHsv r g b).2.1 (RgbToHsv r g b).2.2).1 - r|
      ≤ 1 / 1000000 ∧
    |(HsvToRgb (RgbToHsv r g b).1 (RgbToHsv r g b).2.1 (RgbToHsv r g b).2.2).2.1 - g|
      ≤ 1 / 1000000 ∧
    |(HsvToRgb (RgbToHsv r g b).1 (RgbToHsv r g b).2.1 (RgbToHsv r g b).2.2).2.2 - b|
      ≤ 1 / 1000000 := by
  rw [hsv_round_trip_eq r g b hr0 hg0 hb0]
  refine ⟨rfl, ?_, ?_, ?_⟩ <;> simp

/-- Witness for C1 at `(1, 1/2, 1/2)`, where red is the only maximum. -/
theorem hsv_round_trip_witness :
    HsvToRgb (RgbToHsv 1 (1 / 2) (1 / 2)).1 (RgbToHsv 1 (1 / 2) (1 / 2)).2.1
      (RgbToHsv 1 (1 / 2) (1 / 2)).2.2 = (1, 1 / 2, 1 / 2) :=
  (hsv_round_trip 1 (1 / 2) (1 / 2) (by norm_num) (by norm_num) (by norm_num) (by norm_num)
    (by norm_num) (by norm_num)).1

/-! ## The trapezoid `_v` -/

theorem v_up (m1 m2 h : ℚ) (h1 : 0 ≤ h) (h2 : h ≤ 1 / 6) :
    _v m1 m2 h = m1 + (m2 - m1) * 6 * h := by
  unfold _v
  have hn : ¬ h < 0 := by linarith
  have hg : ¬ h > 1 := by linarith
  simp only [ONE_SIXTH, TWO_THIRD, if_neg hn, if_neg hg]
  split_ifs with c1 c2 c3
  · rfl
  · have e : h = 1 / 6 := by linarith
    rw [e]; ring
  · exfalso; linarith
  · exfalso; linarith

theorem v_top (m1 m2 h : ℚ) (h1 : 1 / 6 ≤ h) (h2 : h ≤ 1 / 2) : _v m1 m2 h = m2 := by
  unfold _v
  have hn : ¬ h < 0 := by linarith
  have hg : ¬ h > 1 := by linarith
  simp only [ONE_SIXTH, TWO_THIRD, if_neg hn, if_neg hg]
  split_ifs with c1 c2 c3
  · exfalso; linarith
  · rfl
  · have e : h = 1 / 2 := by linarith
    rw [e]; ring
  · exfalso; linarith

theorem v_down (m1 m2 h : ℚ) (h1 : 1 / 2 ≤ h) (h2 : h ≤ 2 / 3) :
    _v m1 m2 h = m1 + (m2 - m1) * (2 / 3 - h) * 6 := by
  unfold _v
  have hn : ¬ h < 0 := by linarith
  have hg : ¬ h > 1 := by linarith
  simp only [ONE_SIXTH, TWO_THIRD, if_neg hn, if_neg hg]
  split_ifs with c1 c2 c3
  · exfalso; linarith
  · exfalso; linarith
  · rfl
  · have e : h = 2 / 3 := by linarith
    rw [e]; ring

theorem v_low (m1 m2 h : ℚ) (h1 : 2 / 3 ≤ h) (h2 : h ≤ 1) : _v m1 m2 h = m1 := by
  unfold _v
  have hn : ¬ h < 0 := by linarith
  have hg : ¬ h > 1 := by linarith
  simp only [ONE_SIXTH, TWO_THIRD, if_neg hn, if_neg hg]
  split_ifs with c1 c2 c3
  · exfalso; linarith
  · exfalso; linarith
  · exfalso; linarith
  · rfl

theorem v_neg (m1 m2 h : ℚ) (h1 : -1 ≤ h) (h2 : h < 0) : _v m1 m2 h = _v m1 m2 (h + 1) := by
  unfold _v
  have a1 : ¬ h + 1 < 0 := by linarith
  have a2 : ¬ h + 1 > 1 := by linarith
  simp only [if_pos h2, if_neg a1, if_neg a2]

theorem v_gt_one (m1 m2 h : ℚ) (h1 : 1 < h) (h2 : h ≤ 2) : _v m1 m2 h = _v m1 m2 (h - 1) := by
  unfold _v
  have a0 : ¬ h < 0 := by linarith
  have a1 : ¬ h - 1 < 0 := by linarith
  have a2 : ¬ h - 1 > 1 := by linarith
  have a3 : h > 1 := h1
  simp only [if_neg a0, if_pos a3, if_neg a1, if_neg a2]

/-! ## HLS round trip -/

theorem hls_anchors (M m h : ℚ) (hm0 : 0 ≤ m) (hmM : m < M) (hM1 : M ≤ 1) :
    HlsToRgb h ((M + m) / 2)
        (if (M + m) / 2 ≤ 0.5 then (M - m) / (M + m) else (M - m) / (2 - M - m)) =
      (_v m M (h + 1 / 3), _v m M h, _v m M (h - 1 / 3)) := by
  have hd : M - m ≠ 0 := by intro e; linarith
  have e1 : 2 * ((M + m) / 2) - M = m := by ring
  unfold HlsToRgb
  by_cases hl : (M + m) / 2 ≤ 0.5
  · have hp : M + m ≠ 0 := by intro e; linarith
    have hs : (M - m) / (M + m) ≠ 0 := div_ne_zero hd hp
    have e2 : (M + m) / 2 * (1 + (M - m) / (M + m)) = M := by field_simp; ring
    simp only [if_pos hl, if_neg hs, e2, e1, ONE_THIRD]
  · have hp : 2 - M - m ≠ 0 := by intro e; linarith
    have hs : (M - m) / (2 - M - m) ≠ 0 := div_ne_zero hd hp
    have e2 : (M + m) / 2 + (M - m) / (2 - M - m) - (M + m) / 2 * ((M - m) / (2 - M - m)) = M := by
      field_simp; ring
    simp only [if_neg hl, if_neg hs, e2, e1, ONE_THIRD]

theorem hls_round_trip_rmax_ge (r g b : ℚ) (hb0 : 0 ≤ b) (hr1 : r ≤ 1) (h1 : b ≤ g)
    (h2 : g ≤ r) (h3 : b < r) :
    HlsToRgb (RgbToHls r g b).1 (RgbToHls r g b).2.1 (RgbToHls r g b).2.2 = (r, g, b) := by
  rw [RgbToHls_rmax_ge r g b h1 h2 h3]
  have hd : 0 < r - b := by linarith
  obtain ⟨q1, q2⟩ := frac_bounds (g - b) (r - b) hd (by linarith) (by linarith)
  have q0 : 0 ≤ (g - b) / (r - b) := div_nonneg (by linarith) hd.le
  dsimp only
  rw [hls_anchors r b _ hb0 h3 hr1]
  refine Prod.ext ?_ (Prod.ext ?_ ?_) <;> dsimp only
  · rw [v_top _ _ _ (by linarith) (by linarith)]
  · rw [v_up _ _ _ (by linarith) (by linarith)]
    field_simp
  · rw [v_neg _ _ _ (by linarith) (by linarith), v_low _ _ _ (by linarith) (by linarith)]

theorem hls_round_trip_rmax_lt (r g b : ℚ) (hg0 : 0 ≤ g) (hr1 : r ≤ 1) (h1 : g < b)
    (h2 : b ≤ r) :
    HlsToRgb (RgbToHls r g b).1 (RgbToHls r g b).2.1 (RgbToHls r g b).2.2 = (r, g, b) := by
  rw [RgbToHls_rmax_lt r g b h1 h2]
  have hd : 0 < r - g := by linarith
  obtain ⟨q1, q2⟩ := frac_bounds (g - b) (r - g) hd (by linarith) (by linarith)
  have q0 : (g - b) / (r - g) < 0 := div_neg_of_neg_of_pos (by linarith) hd
  dsimp only
  rw [hls_anchors r g _ hg0 (by linarith) hr1]
  refine Prod.ext ?_ (Prod.ext ?_ ?_) <;> dsimp only
  · rw [v_top _ _ _ (by linarith) (by linarith)]
  · rw [v_neg _ _ _ (by linarith) (by linarith), v_low _ _ _ (by linarith) (by linarith)]
  · rw [v_neg _ _ _ (by linarith) (by linarith), v_down _ _ _ (by linarith) (by linarith)]
    field_simp; ring

theorem hls_round_trip_gmax_ge (r g b : ℚ) (hr0 : 0 ≤ r) (hg1 : g ≤ 1) (h1 : r ≤ b)
    (h2 : b ≤ g) (h3 : r < g) :
    HlsToRgb (RgbToHls r g b).1 (RgbToHls r g b).2.1 (RgbToHls r g b).2.2 = (r, g, b) := by
  rw [RgbToHls_gmax_ge r g b h1 h2 h3]
  have hd : 0 < g - r := by linarith
  obtain ⟨q1, q2⟩ := frac_bounds (b - r) (g - r) hd (by linarith) (by linarith)
  have q0 : 0 ≤ (b - r) / (g - r) := div_nonneg (by linarith) hd.le
  dsimp only
  rw [hls_anchors g r _ hr0 h3 hg1]
  refine Prod.ext ?_ (Prod.ext ?_ ?_) <;> dsimp only
  · rw [v_low _ _ _ (by linarith) (by linarith)]
  · rw [v_top _ _ _ (by linarith) (by linarith)]
  · rw [v_up _ _ _ (by linarith) (by linarith)]
    field_simp; ring

theorem hls_round_trip_gmax_lt (r g b : ℚ) (hb0 : 0 ≤ b) (hg1 : g ≤ 1) (h1 : b < r)
    (h2 : r < g) :
    HlsToRgb (RgbToHls r g b).1 (RgbToHls r g b).2.1 (RgbToHls r g b).2.2 = (r, g, b) := by
  rw [RgbToHls_gmax_lt r g b h1 h2]
  have hd : 0 < g - b := by linarith
  obtain ⟨q1, q2⟩ := frac_strict (b - r) (g - b) hd (by linarith) (by linarith)
  have q0 : (b - r) / (g - b) < 0 := div_neg_of_neg_of_pos (by linarith) hd
  dsimp only
  rw [hls_anchors g b _ hb0 (by linarith) hg1]
  refine Prod.ext ?_ (Prod.ext ?_ ?_) <;> dsimp only
  · rw [v_down _ _ _ (by linarith) (by linarith)]
    field_simp; ring
  · rw [v_top _ _ _ (by linarith) (by linarith)]
  · rw [v_neg _ _ _ (by linarith) (by linarith), v_low _ _ _ (by linarith) (by linarith)]

theorem hls_round_trip_bmax_ge (r g b : ℚ) (hg0 : 0 ≤ g) (hb1 : b ≤ 1) (h1 : g ≤ r)
    (h2 : r < b) :
    HlsToRgb (RgbToHls r g b).1 (RgbToHls r g b).2.1 (RgbToHls r g b).2.2 = (r, g, b) := by
  rw [RgbToHls_bmax_ge r g b h1 h2]
  have hd : 0 < b - g := by linarith
  have q0 : 0 ≤ (r - g) / (b - g) := div_nonneg (by linarith) hd.le
  have q1 : (r - g) / (b - g) < 1 := (div_lt_one hd).mpr (by linarith)
  dsimp only
  rw [hls_anchors b g _ hg0 (by linarith) hb1]
  refine Prod.ext ?_ (Prod.ext ?_ ?_) <;> dsimp only
  · rcases lt_or_eq_of_le h1 with h4 | h4
    · have q3 : 0 < (r - g) / (b - g) := div_pos (by linarith) hd
      rw [v_gt_one _ _ _ (by linarith) (by linarith), v_up _ _ _ (by linarith) (by linarith)]
      field_simp; ring
    · subst h4
      rw [sub_self, zero_div]
      rw [v_low _ _ _ (by norm_num) (by norm_num)]
  · rw [v_low _ _ _ (by linarith) (by linarith)]
  · rw [v_top _ _ _ (by linarith) (by linarith)]

theorem hls_round_trip_bmax_lt (r g b : ℚ) (hr0 : 0 ≤ r) (hb1 : b ≤ 1) (h1 : r < g)
    (h2 : g < b) :
    HlsToRgb (RgbToHls r g b).1 (RgbToHls r g b).2.1 (RgbToHls r g b).2.2 = (r, g, b) := by
  rw [RgbToHls_bmax_lt r g b h1 h2]
  have hd : 0 < b - r := by linarith
  obtain ⟨q1, q2⟩ := frac_strict (r - g) (b - r) hd (by linarith) (by linarith)
  have q0 : (r - g) / (b - r) < 0 := div_neg_of_neg_of_pos (by linarith) hd
  dsimp only
  rw [hls_anchors b r _ hr0 (by linarith) hb1]
  refine Prod.ext ?_ (Prod.ext ?_ ?_) <;> dsimp only
  · rw [v_low _ _ _ (by linarith) (by linarith)]
  · rw [v_down _ _ _ (by linarith) (by linarith)]
    field_simp; ring
  · rw [v_top _ _ _ (by linarith) (by linarith)]

/-- C2: HLS round trip.  For every RGB triple with each component in `[0, 1]`,
`HlsToRgb` applied to the result of `RgbToHls` gives back the triple exactly
(in exact arithmetic), hence within `1e-6` on each channel.  This includes the
triples with red the maximum and `g < b`, where `RgbToHls` returns a negative
hue: `_v` wraps a negative argument by adding one. -/
theorem hls_round_trip (r g b : ℚ) (hr0 : 0 ≤ r) (hr1 : r ≤ 1) (hg0 : 0 ≤ g) (hg1 : g ≤ 1)
    (hb0 : 0 ≤ b) (hb1 : b ≤ 1) :
    HlsToRgb (RgbToHls r g b).1 (RgbToHls r g b).2.1 (RgbToHls r g b).2.2 = (r, g, b) ∧
    |(HlsToRgb (RgbToHls r g b).1 (RgbToHls r g b).2.1 (RgbToHls r g b).2.2).1 - r|
      ≤ 1 / 1000000 ∧
    |(HlsToRgb (RgbToHls r g b).1 (RgbToHls r g b).2.1 (RgbToHls r g b).2.2).2.1 - g|
      ≤ 1 / 1000000 ∧
    |(HlsToRgb (RgbToHls r g b).1 (RgbToHls r g b).2.1 (RgbToHls r g b).2.2).2.2 - b|
      ≤ 1 / 1000000 := by
  have key : HlsToRgb (RgbToHls r g b).1 (RgbToHls r g b).2.1 (RgbToHls r g b).2.2
      = (r, g, b) := by
    rcases rgb_cases r g b with ⟨h1, h2⟩ | ⟨h1, h2, h3⟩ | ⟨h1, h2⟩ | ⟨h1, h2, h3⟩ | ⟨h1, h2⟩ |
      ⟨h1, h2⟩ | ⟨h1, h2⟩
    · subst h1; subst h2
      rw [RgbToHls_gray r, HlsToRgb_gray]
    · exact hls_round_trip_rmax_ge r g b hb0 hr1 h1 h2 h3
    · exact hls_round_trip_rmax_lt r g b hg0 hr1 h1 h2
    · exact hls_round_trip_gmax_ge r g b hr0 hg1 h1 h2 h3
    · exact hls_round_trip_gmax_lt r g b hb0 hg1 h1 h2
    · exact hls_round_trip_bmax_ge r g b hg0 hb1 h1 h2
    · exact hls_round_trip_bmax_lt r g b hr0 hb1 h1 h2
  rw [key]
  refine ⟨rfl, ?_, ?_, ?_⟩ <;> simp

/-- Witness for C2 at the purple `(1/2, 0, 1/2)`, where the hue is negative. -/
theorem hls_round_trip_witness :
    HlsToRgb (RgbToHls (1 / 2) 0 (1 / 2)).1 (RgbToHls (1 / 2) 0 (1 / 2)).2.1
      (RgbToHls (1 / 2) 0 (1 / 2)).2.2 = (1 / 2, 0, 1 / 2) :=
  (hls_round_trip (1 / 2) 0 (1 / 2) (by norm_num) (by norm_num) (by norm_num) (by norm_num)
    (by norm_num) (by norm_num)).1

/-! ## Lightness and saturation of `RgbToHls` -/

theorem RgbToHls_lightness (r g b : ℚ) :
    (RgbToHls r g b).2.1 = (max3 r g b + min3 r g b) / 2 := by
  simp only [RgbToHls]
  split_ifs <;> rfl

theorem max3_mem (r g b : ℚ) (hr0 : 0 ≤ r) (hr1 : r ≤ 1) (hg1 : g ≤ 1) (hb1 : b ≤ 1) :
    0 ≤ max3 r g b ∧ max3 r g b ≤ 1 := by
  unfold max3
  exact ⟨le_trans hr0 (le_trans (le_max_left r g) (le_max_left _ b)),
    max_le (max_le hr1 hg1) hb1⟩

theorem min3_mem (r g b : ℚ) (hr0 : 0 ≤ r) (hr1 : r ≤ 1) (hg0 : 0 ≤ g) (hb0 : 0 ≤ b) :
    0 ≤ min3 r g b ∧ min3 r g b ≤ 1 := by
  unfold min3
  exact ⟨le_min (le_min hr0 hg0) hb0,
    le_trans (min_le_left _ b) (le_trans (min_le_left r g) hr1)⟩

theorem hls_sat_bounds (M m : ℚ) (hm0 : 0 ≤ m) (hmM : m < M) (hM1 : M ≤ 1) :
    0 < (if (M + m) / 2 ≤ 0.5 then (M - m) / (M + m) else (M - m) / (2 - M - m)) ∧
    (if (M + m) / 2 ≤ 0.5 then (M - m) / (M + m) else (M - m) / (2 - M - m)) ≤ 1 := by
  have hd : 0 < M - m := by linarith
  split_ifs with hl
  · have hp : 0 < M + m := by linarith
    exact ⟨div_pos hd hp, (div_le_one hp).mpr (by linarith)⟩
  · have hp : 0 < 2 - M - m := by linarith
    exact ⟨div_pos hd hp, (div_le_one hp).mpr (by linarith)⟩

theorem RgbToHls_saturation (r g b : ℚ) (hr0 : 0 ≤ r) (hr1 : r ≤ 1) (hg0 : 0 ≤ g) (hg1 : g ≤ 1)
    (hb0 : 0 ≤ b) (hb1 : b ≤ 1) (hne : ¬ (r = g ∧ g = b)) :
    0 < (RgbToHls r g b).2.2 ∧ (RgbToHls r g b).2.2 ≤ 1 := by
  rcases rgb_cases r g b with ⟨h1, h2⟩ | ⟨h1, h2, h3⟩ | ⟨h1, h2⟩ | ⟨h1, h2, h3⟩ | ⟨h1, h2⟩ |
    ⟨h1, h2⟩ | ⟨h1, h2⟩
  · exact absurd ⟨h1, h2⟩ hne
  · rw [RgbToHls_rmax_ge r g b h1 h2 h3]
    exact hls_sat_bounds r b hb0 h3 hr1
  · rw [RgbToHls_rmax_lt r g b h1 h2]
    exact hls_sat_bounds r g hg0 (by linarith) hr1
  · rw [RgbToHls_gmax_ge r g b h1 h2 h3]
    exact hls_sat_bounds g r hr0 h3 hg1
  · rw [RgbToHls_gmax_lt r g b h1 h2]
    exact hls_sat_bounds g b hb0 (by linarith) hg1
  · rw [RgbToHls_bmax_ge r g b h1 h2]
    exact hls_sat_bounds b g hg0 (by linarith) hb1
  · rw [RgbToHls_bmax_lt r g b h1 h2]
    exact hls_sat_bounds b r hr0 (by linarith) hb1

/-- C11: lightness and saturation range of `RgbToHls`.  For every RGB triple
with each component in `[0, 1]`, the lightness is `(max + min) / 2` and lies in
`[0, 1]`, the saturation lies in `[0, 1]`, and the saturation is positive
whenever the three channels are not all equal. -/
theorem RgbToHls_lightness_saturation_range (r g b : ℚ) (hr0 : 0 ≤ r) (hr1 : r ≤ 1)
    (hg0 : 0 ≤ g) (hg1 : g ≤ 1) (hb0 : 0 ≤ b) (hb1 : b ≤ 1) :
    (RgbToHls r g b).2.1 = (max3 r g b + min3 r g b) / 2 ∧
    (0 ≤ (RgbToHls r g b).2.1 ∧ (RgbToHls r g b).2.1 ≤ 1) ∧
    (0 ≤ (RgbToHls r g b).2.2 ∧ (RgbToHls r g b).2.2 ≤ 1) ∧
    (¬ (r = g ∧ g = b) → 0 < (RgbToHls r g b).2.2) := by
  obtain ⟨a1, a2⟩ := max3_mem r g b hr0 hr1 hg1 hb1
  obtain ⟨a3, a4⟩ := min3_mem r g b hr0 hr1 hg0 hb0
  refine ⟨RgbToHls_lightness r g b, ?_, ?_, ?_⟩
  · rw [RgbToHls_lightness]
    constructor <;> linarith
  · by_cases hne : r = g ∧ g = b
    · obtain ⟨e1, e2⟩ := hne
      subst e1; subst e2
      rw [RgbToHls_gray]
      norm_num
    · obtain ⟨s1, s2⟩ := RgbToHls_saturation r g b hr0 hr1 hg0 hg1 hb0 hb1 hne
      exact ⟨s1.le, s2⟩
  · intro hne
    exact (RgbToHls_saturation r g b hr0 hr1 hg0 hg1 hb0 hb1 hne).1

/-- Witness for C11 at `(1, 0, 1/2)`, a non-gray triple. -/
theorem RgbToHls_lightness_saturation_range_witness :
    (RgbToHls 1 0 (1 / 2)).2.1 = (max3 1 0 (1 / 2) + min3 1 0 (1 / 2)) / 2 ∧
    (0 ≤ (RgbToHls 1 0 (1 / 2)).2.1 ∧ (RgbToHls 1 0 (1 / 2)).2.1 ≤ 1) ∧
    (0 ≤ (RgbToHls 1 0 (1 / 2)).2.2 ∧ (RgbToHls 1 0 (1 / 2)).2.2 ≤ 1) ∧
    (¬ ((1 : ℚ) = 0 ∧ (0 : ℚ) = 1 / 2) → 0 < (RgbToHls 1 0 (1 / 2)).2.2) :=
  RgbToHls_lightness_saturation_range 1 0 (1 / 2) (by norm_num) (by norm_num) (by norm_num)
    (by norm_num) (by norm_num) (by norm_num)

/-! ## The two forward hues -/

theorem le_max3_left (r g b : ℚ) : r ≤ max3 r g b :=
  le_trans (le_max_left r g) (le_max_left _ b)

theorem le_max3_mid (r g b : ℚ) : g ≤ max3 r g b :=
  le_trans (le_max_right r g) (le_max_left _ b)

theorem le_max3_right (r g b : ℚ) : b ≤ max3 r g b :=
  le_max_right _ b

theorem max3_eq_left (r g b : ℚ) (h1 : g ≤ r) (h2 : b ≤ r) : max3 r g b = r :=
  le_antisymm (max_le (max_le le_rfl h1) h2) (le_max3_left r g b)

theorem hue_rel_same (r g b : ℚ) (hP : ¬ (r = max3 r g b ∧ g < b))
    (e : (RgbToHls r g b).1 = (RgbToHsv r g b).1) :
    ((RgbToHls r g b).1 = (RgbToHsv r g b).1 ∨
      (RgbToHls r g b).1 = (RgbToHsv r g b).1 - 1) ∧
    ((r = max3 r g b ∧ g < b) →
      (RgbToHls r g b).1 = (RgbToHsv r g b).1 - 1 ∧
      -1 / 6 ≤ (RgbToHls r g b).1 ∧ (RgbToHls r g b).1 < 0) ∧
    (¬ (r = max3 r g b ∧ g < b) → (RgbToHls r g b).1 = (RgbToHsv r g b).1) :=
  ⟨Or.inl e, fun h => absurd h hP, fun _ => e⟩

theorem hue_rel (r g b : ℚ) :
    ((RgbToHls r g b).1 = (RgbToHsv r g b).1 ∨
      (RgbToHls r g b).1 = (RgbToHsv r g b).1 - 1) ∧
    ((r = max3 r g b ∧ g < b) →
      (RgbToHls r g b).1 = (RgbToHsv r g b).1 - 1 ∧
      -1 / 6 ≤ (RgbToHls r g b).1 ∧ (RgbToHls r g b).1 < 0) ∧
    (¬ (r = max3 r g b ∧ g < b) → (RgbToHls r g b).1 = (RgbToHsv r g b).1) := by
  rcases rgb_cases r g b with ⟨h1, h2⟩ | ⟨h1, h2, h3⟩ | ⟨h1, h2⟩ | ⟨h1, h2, h3⟩ | ⟨h1, h2⟩ |
    ⟨h1, h2⟩ | ⟨h1, h2⟩
  · refine hue_rel_same r g b (fun h => ?_) ?_
    · exact absurd h.2 (by rw [h2]; exact lt_irrefl b)
    · subst h1; subst h2
      rw [RgbToHls_gray, RgbToHsv_gray]
  · refine hue_rel_same r g b (fun h => absurd h.2 (not_lt.mpr h1)) ?_
    rw [RgbToHls_rmax_ge r g b h1 h2 h3, RgbToHsv_rmax_ge r g b h1 h2 h3]
  · have hmax : r = max3 r g b := (max3_eq_left r g b (by linarith) h2).symm
    have hd : 0 < r - g := by linarith
    obtain ⟨q1, q2⟩ := frac_bounds (g - b) (r - g) hd (by linarith) (by linarith)
    have q0 : (g - b) / (r - g) < 0 := div_neg_of_neg_of_pos (by linarith) hd
    have e : (RgbToHls r g b).1 = (RgbToHsv r g b).1 - 1 := by
      rw [RgbToHls_rmax_lt r g b h1 h2, RgbToHsv_rmax_lt r g b h1 h2]
      simp
    have e2 : (RgbToHls r g b).1 = (g - b) / (r - g) / 6 := by
      rw [RgbToHls_rmax_lt r g b h1 h2]
    refine ⟨Or.inr e, fun _ => ⟨e, ?_, ?_⟩, fun h => absurd ⟨hmax, h1⟩ h⟩
    · rw [e2]; linarith
    · rw [e2]; linarith
  · refine hue_rel_same r g b (fun h => ?_) ?_
    · have := le_max3_mid r g b
      have := h.1
      linarith
    · rw [RgbToHls_gmax_ge r g b h1 h2 h3, RgbToHsv_gmax_ge r g b h1 h2 h3]
  · refine hue_rel_same r g b (fun h => ?_) ?_
    · have := le_max3_mid r g b
      have := h.1
      linarith
    · rw [RgbToHls_gmax_lt r g b h1 h2, RgbToHsv_gmax_lt r g b h1 h2]
  · refine hue_rel_same r g b (fun h => ?_) ?_
    · have := le_max3_right r g b
      have := h.1
      linarith
    · rw [RgbToHls_bmax_ge r g b h1 h2, RgbToHsv_bmax_ge r g b h1 h2]
  · refine hue_rel_same r g b (fun h => ?_) ?_
    · have := le_max3_right r g b
      have := h.1
      linarith
    · rw [RgbToHls_bmax_lt r g b h1 h2, RgbToHsv_bmax_lt r g b h1 h2]

/-- C19, amended: relation between the two forward hues in exact arithmetic.
With the formulas evaluated without rounding, for every RGB triple with each
component in `[0, 1]`, the hue of `RgbToHls` equals the hue of `RgbToHsv` or is
exactly `1` less; it is `1` less, and then lies in `[-1/6, 0)`, exactly when
`r` is the maximum channel and `g < b`, and the two agree otherwise. -/
theorem hue_relation (r g b : ℚ) (_hr0 : 0 ≤ r) (_hr1 : r ≤ 1) (_hg0 : 0 ≤ g) (_hg1 : g ≤ 1)
    (_hb0 : 0 ≤ b) (_hb1 : b ≤ 1) :
    ((RgbToHls r g b).1 = (RgbToHsv r g b).1 ∨
      (RgbToHls r g b).1 = (RgbToHsv r g b).1 - 1) ∧
    ((r = max3 r g b ∧ g < b) →
      (RgbToHls r g b).1 = (RgbToHsv r g b).1 - 1 ∧
      -1 / 6 ≤ (RgbToHls r g b).1 ∧ (RgbToHls r g b).1 < 0) ∧
    (¬ (r = max3 r g b ∧ g < b) → (RgbToHls r g b).1 = (RgbToHsv r g b).1) :=
  hue_rel r g b

/-- Witness for the amended C19 at the purple `(1/2, 0, 1/2)`, where the hues differ by one. -/
theorem hue_relation_witness :
    (RgbToHls (1 / 2) 0 (1 / 2)).1 = (RgbToHsv (1 / 2) 0 (1 / 2)).1 ∨
      (RgbToHls (1 / 2) 0 (1 / 2)).1 = (RgbToHsv (1 / 2) 0 (1 / 2)).1 - 1 :=
  (hue_relation (1 / 2) 0 (1 / 2) (by norm_num) (by norm_num) (by norm_num) (by norm_num)
    (by norm_num) (by norm_num)).1

/-! ## YIQ component bounds -/

/-- C20, amended: YIQ component bounds in exact arithmetic.  With the decimal
coefficients and the sums taken without rounding, for every RGB triple with
each component in `[0, 1]`, `RgbToYiq` returns `y` in `[0, 1]`, `|i| ≤ 0.599`
and `|q| ≤ 0.5251`; the bounds are attained (`y = 1` at white, `i = 0.599` at
`(1,0,0)`, `q = -0.5251` at `(0,1,0)`), and every gray `(c, c, c)` maps to
`(c, 0, 0)`. -/
theorem RgbToYiq_bounds (r g b c : ℚ) (hr0 : 0 ≤ r) (hr1 : r ≤ 1) (hg0 : 0 ≤ g) (hg1 : g ≤ 1)
    (hb0 : 0 ≤ b) (hb1 : b ≤ 1) :
    (0 ≤ (RgbToYiq r g b).1 ∧ (RgbToYiq r g b).1 ≤ 1) ∧
    |(RgbToYiq r g b).2.1| ≤ 0.599 ∧ |(RgbToYiq r g b).2.2| ≤ 0.5251 ∧
    (RgbToYiq 1 1 1).1 = 1 ∧ (RgbToYiq 1 0 0).2.1 = 0.599 ∧
    (RgbToYiq 0 1 0).2.2 = -0.5251 ∧ RgbToYiq c c c = (c, 0, 0) := by
  simp only [RgbToYiq]
  refine ⟨⟨?_, ?_⟩, ?_, ?_, ?_, ?_, ?_, ?_⟩
  · linarith
  · linarith
  · rw [abs_le]; constructor <;> linarith
  · rw [abs_le]; constructor <;> linarith
  · norm_num
  · norm_num
  · norm_num
  · refine Prod.ext ?_ (Prod.ext ?_ ?_) <;> dsimp only <;> ring

/-- Witness for the amended C20 at pure green `(0, 1, 0)` and the gray `1/2`. -/
theorem RgbToYiq_bounds_witness :
    |(RgbToYiq 0 1 0).2.2| ≤ 0.5251 :=
  (RgbToYiq_bounds 0 1 0 (1 / 2) (by norm_num) (by norm_num) (by norm_num) (by norm_num)
    (by norm_num) (by norm_num)).2.2.1

/-! ## The sector index of `HsvToRgb` -/

theorem HsvToRgb_eq_sector (h s v : ℚ) (hs : s ≠ 0) :
    HsvToRgb h s v =
      match HsvToRgbSector h with
      | 0 => (v, v * (1 - s * (1 - (h * 6 - (goInt (h * 6) : ℚ)))), v * (1 - s))
      | 1 => (v * (1 - s * (h * 6 - (goInt (h * 6) : ℚ))), v, v * (1 - s))
      | 2 => (v * (1 - s), v, v * (1 - s * (1 - (h * 6 - (goInt (h * 6) : ℚ)))))
      | 3 => (v * (1 - s), v * (1 - s * (h * 6 - (goInt (h * 6) : ℚ))), v)
      | 4 => (v * (1 - s * (1 - (h * 6 - (goInt (h * 6) : ℚ)))), v * (1 - s), v)
      | 5 => (v, v * (1 - s), v * (1 - s * (h * 6 - (goInt (h * 6) : ℚ))))
      | _ => (0, 0, 0) := by
  unfold HsvToRgb HsvToRgbSector
  simp only [if_neg hs]

theorem mod_six_of_nonneg (i : ℤ) (hi : 0 ≤ i) : _mod (i : ℚ) 6 = ((i % 6 : ℤ) : ℚ) := by
  have h0 : (0 : ℚ) ≤ (i : ℚ) / 6 := div_nonneg (by exact_mod_cast hi) (by norm_num)
  have e : goInt ((i : ℚ) / 6) = i / 6 := by
    unfold goInt
    rw [if_pos h0]
    exact_mod_cast Rat.floor_intCast_div_natCast i 6
  unfold _mod
  simp only [e]
  have k : i % 6 = i - i / 6 * 6 := by omega
  rw [k]
  push_cast
  ring

theorem HsvToRgbSector_nonneg (h : ℚ) (h0 : 0 ≤ h) :
    0 ≤ HsvToRgbSector h ∧ HsvToRgbSector h ≤ 5 := by
  have hi : 0 ≤ goInt (h * 6) := by
    unfold goInt
    rw [if_pos (by linarith)]
    exact Int.floor_nonneg.mpr (by linarith)
  unfold HsvToRgbSector
  simp only [mod_six_of_nonneg _ hi, goInt_intCast]
  omega

theorem goInt_neg_three : goInt (-1 / 2 * 6) = -3 := by
  have e : (-1 / 2 * 6 : ℚ) = ((-3 : ℤ) : ℚ) := by norm_num
  rw [e, goInt_intCast]

theorem mod_neg_three : _mod ((-3 : ℤ) : ℚ) 6 = ((-3 : ℤ) : ℚ) := by
  unfold _mod
  have e : goInt (((-3 : ℤ) : ℚ) / 6) = 0 := goInt_eq_zero _ (by norm_num) (by norm_num)
  simp only [e]
  norm_num

/-- C15: the `default` case of `HsvToRgb` is reachable.  For the hue `-0.5`
the sector index `int(_mod(float64(int(h*6.0)), 6.0))` is `-3`, outside
`0..5`, and `HsvToRgb (-0.5) 1 1` returns `(0, 0, 0)` through the `default`
case; with the in-range hue `0.5` the same call returns `(0, 1, 1)`. -/
theorem HsvToRgb_default_reached :
    HsvToRgbSector (-1 / 2) = -3 ∧ HsvToRgb (-1 / 2) 1 1 = (0, 0, 0) ∧
    HsvToRgb (1 / 2) 1 1 = (0, 1, 1) := by
  have e : HsvToRgbSector (-1 / 2) = -3 := by
    unfold HsvToRgbSector
    simp only [goInt_neg_three, mod_neg_three, goInt_intCast]
  refine ⟨e, ?_, ?_⟩
  · rw [HsvToRgb_eq_sector _ _ _ one_ne_zero, e]
    rfl
  · rw [HsvToRgb_sector3 _ _ _ one_ne_zero (by norm_num) (by norm_num)]
    norm_num

/-! ## Sector dispatch of `HsvToRgb` on `[0, 1]` -/

theorem HsvToRgb_one (s v : ℚ) (hs : s ≠ 0) :
    HsvToRgb 1 s v = (v, v * (1 - s * (1 - (1 * 6 - 6))), v * (1 - s)) := by
  have e1 : goInt ((1 : ℚ) * 6) = 6 := by
    have e : ((1 : ℚ) * 6) = ((6 : ℤ) : ℚ) := by norm_num
    rw [e, goInt_intCast]
  have e2 : goInt (_mod ((6 : ℤ) : ℚ) 6) = 0 := by
    rw [mod_six_of_nonneg 6 (by norm_num), goInt_intCast]
    rfl
  unfold HsvToRgb
  rw [if_neg hs]
  simp only [e1, e2]
  push_cast
  rfl

/-- C17: sector dispatch of `HsvToRgb` on the valid hue domain.  For
`0 ≤ h ≤ 1` and `s ≠ 0`, with `k = floor(6h)`, `f = 6h - k`, `p = v(1-s)`,
`q = v(1-s*f)`, `t = v(1-s*(1-f))`: `k` is in `0..6` and the result is
`(v,t,p)`, `(q,v,p)`, `(p,v,t)`, `(p,q,v)`, `(t,p,v)`, `(v,p,q)` for
`k = 0,...,5` and `(v,t,p)` for `k = 6`; and `HsvToRgb (5/6) 1 0.5 = (0.5, 0, 0.5)`. -/
theorem HsvToRgb_dispatch (h s v : ℚ) (h0 : 0 ≤ h) (h1 : h ≤ 1) (hs : s ≠ 0) :
    (0 ≤ ⌊h * 6⌋ ∧ ⌊h * 6⌋ ≤ 6) ∧
    HsvToRgb h s v =
      (if ⌊h * 6⌋ = 0 then
        (v, v * (1 - s * (1 - (h * 6 - (⌊h * 6⌋ : ℚ)))), v * (1 - s))
      else if ⌊h * 6⌋ = 1 then
        (v * (1 - s * (h * 6 - (⌊h * 6⌋ : ℚ))), v, v * (1 - s))
      else if ⌊h * 6⌋ = 2 then
        (v * (1 - s), v, v * (1 - s * (1 - (h * 6 - (⌊h * 6⌋ : ℚ)))))
      else if ⌊h * 6⌋ = 3 then
        (v * (1 - s), v * (1 - s * (h * 6 - (⌊h * 6⌋ : ℚ))), v)
      else if ⌊h * 6⌋ = 4 then
        (v * (1 - s * (1 - (h * 6 - (⌊h * 6⌋ : ℚ)))), v * (1 - s), v)
      else if ⌊h * 6⌋ = 5 then
        (v, v * (1 - s), v * (1 - s * (h * 6 - (⌊h * 6⌋ : ℚ))))
      else
        (v, v * (1 - s * (1 - (h * 6 - (⌊h * 6⌋ : ℚ)))), v * (1 - s))) ∧
    HsvToRgb (5 / 6) 1 0.5 = (0.5, 0, 0.5) := by
  have k0 : 0 ≤ ⌊h * 6⌋ := Int.floor_nonneg.mpr (by linarith)
  have k6 : ⌊h * 6⌋ ≤ 6 := by
    have : ⌊h * 6⌋ ≤ ⌊(6 : ℚ)⌋ := Int.floor_le_floor (by linarith)
    simpa using this
  refine ⟨⟨k0, k6⟩, ?_, ?_⟩
  · have hl := Int.floor_le (h * 6)
    have hu := Int.lt_floor_add_one (h * 6)
    generalize hk : ⌊h * 6⌋ = k at k0 k6 hl hu ⊢
    interval_cases k
    · rw [HsvToRgb_sector0 _ _ _ hs (by simpa using hl) (by simpa using hu)]
      simp
    · rw [HsvToRgb_sector1 _ _ _ hs (by simpa using hl) (by norm_num at hu; linarith)]
      simp
    · rw [HsvToRgb_sector2 _ _ _ hs (by simpa using hl) (by norm_num at hu; linarith)]
      simp
    · rw [HsvToRgb_sector3 _ _ _ hs (by simpa using hl) (by norm_num at hu; linarith)]
      simp
    · rw [HsvToRgb_sector4 _ _ _ hs (by simpa using hl) (by norm_num at hu; linarith)]
      simp
    · rw [HsvToRgb_sector5 _ _ _ hs (by simpa using hl) (by norm_num at hu; linarith)]
      simp
    · have e : h = 1 := by
        have : (6 : ℚ) ≤ h * 6 := by simpa using hl
        linarith
      subst e
      rw [HsvToRgb_one s v hs]
      simp
  · rw [HsvToRgb_sector5 _ _ _ one_ne_zero (by norm_num) (by norm_num)]
    norm_num

/-- Witness for C17 at `h = 1`, the hue that is wrapped back to sector 0. -/
theorem HsvToRgb_dispatch_witness : HsvToRgb 1 1 (1 / 2) = (1 / 2, 0, 0) := by
  have e := (HsvToRgb_dispatch 1 1 (1 / 2) (by norm_num) (by norm_num) (by norm_num)).2.1
  have k : ⌊(1 : ℚ) * 6⌋ = 6 := by
    rw [Int.floor_eq_iff]; norm_num
  rw [k] at e
  rw [e]
  norm_num

/-! ## The negative-hue guard of `RgbToHsv` -/

theorem RgbToHsvNoGuard_eq (r g b : ℚ) :
    RgbToHsvNoGuard r g b = ((RgbToHls r g b).1, (RgbToHsv r g b).2.1, (RgbToHsv r g b).2.2) := by
  unfold RgbToHsvNoGuard RgbToHls RgbToHsv
  by_cases h : min3 r g b = max3 r g b
  · simp only [if_pos h]
  · simp only [if_neg h]

theorem RgbToHls_hue_nonneg (r g b : ℚ) (hP : ¬ (r = max3 r g b ∧ g < b)) :
    0 ≤ (RgbToHls r g b).1 := by
  rcases rgb_cases r g b with ⟨h1, h2⟩ | ⟨h1, h2, h3⟩ | ⟨h1, h2⟩ | ⟨h1, h2, h3⟩ | ⟨h1, h2⟩ |
    ⟨h1, h2⟩ | ⟨h1, h2⟩
  · subst h1; subst h2
    rw [RgbToHls_gray]
  · rw [RgbToHls_rmax_ge r g b h1 h2 h3]
    have hd : 0 < r - b := by linarith
    have q0 : 0 ≤ (g - b) / (r - b) := div_nonneg (by linarith) hd.le
    simp only; linarith
  · exact absurd ⟨(max3_eq_left r g b (by linarith) h2).symm, h1⟩ hP
  · rw [RgbToHls_gmax_ge r g b h1 h2 h3]
    obtain ⟨q1, q2⟩ := frac_bounds (b - r) (g - r) (by linarith) (by linarith) (by linarith)
    simp only; linarith
  · rw [RgbToHls_gmax_lt r g b h1 h2]
    obtain ⟨q1, q2⟩ := frac_bounds (b - r) (g - b) (by linarith) (by linarith) (by linarith)
    simp only; linarith
  · rw [RgbToHls_bmax_ge r g b h1 h2]
    obtain ⟨q1, q2⟩ := frac_bounds (r - g) (b - g) (by linarith) (by linarith) (by linarith)
    simp only; linarith
  · rw [RgbToHls_bmax_lt r g b h1 h2]
    obtain ⟨q1, q2⟩ := frac_bounds (r - g) (b - r) (by linarith) (by linarith) (by linarith)
    simp only; linarith

/-- C16, counterexample: on the purple `(1/2, 0, 1/2)` of the test table the
value `_mod(h/6.0, 1.0)` computed in `RgbToHsv` is `-1/6`, so the guard
`if h < 0 { h += 1.0 }` fires, and `RgbToHsv` returns hue `5/6` whereas the
function without the guard returns hue `-1/6`. -/
theorem guard_not_redundant :
    RgbToHsvNoGuard (1 / 2) 0 (1 / 2) = (-1 / 6, 1, 1 / 2) ∧
    RgbToHsv (1 / 2) 0 (1 / 2) = (5 / 6, 1, 1 / 2) ∧
    ¬ (0 ≤ (RgbToHsvNoGuard (1 / 2) 0 (1 / 2)).1 ∧
        RgbToHsv (1 / 2) 0 (1 / 2) = RgbToHsvNoGuard (1 / 2) 0 (1 / 2)) := by
  have e1 : RgbToHsvNoGuard (1 / 2) 0 (1 / 2) = (-1 / 6, 1, 1 / 2) := by
    rw [RgbToHsvNoGuard_eq, RgbToHls_rmax_lt (1 / 2) 0 (1 / 2) (by norm_num) le_rfl,
      RgbToHsv_rmax_lt (1 / 2) 0 (1 / 2) (by norm_num) le_rfl]
    norm_num
  have e2 : RgbToHsv (1 / 2) 0 (1 / 2) = (5 / 6, 1, 1 / 2) := by
    rw [RgbToHsv_rmax_lt (1 / 2) 0 (1 / 2) (by norm_num) le_rfl]
    norm_num
  refine ⟨e1, e2, ?_⟩
  rw [e1]
  intro h
  norm_num at h

/-- C16, amended: for every RGB triple with each component in `[0, 1]` in
which red is not the maximum channel or `g ≥ b`, the value `_mod(h/6.0, 1.0)`
computed in `RgbToHsv` is non-negative, so the guard `if h < 0 { h += 1.0 }`
does not fire and `RgbToHsv` returns the same result as the same function with
that step removed. -/
theorem guard_idle_unless_red_max (r g b : ℚ) (_hr0 : 0 ≤ r) (_hr1 : r ≤ 1) (_hg0 : 0 ≤ g)
    (_hg1 : g ≤ 1) (_hb0 : 0 ≤ b) (_hb1 : b ≤ 1) (hP : ¬ (r = max3 r g b ∧ g < b)) :
    0 ≤ (RgbToHsvNoGuard r g b).1 ∧ RgbToHsv r g b = RgbToHsvNoGuard r g b := by
  obtain ⟨_, _, a3⟩ := hue_rel r g b
  rw [RgbToHsvNoGuard_eq]
  refine ⟨RgbToHls_hue_nonneg r g b hP, ?_⟩
  rw [a3 hP]

/-- Witness for the amended C16 at yellow `(1, 1, 0)`, where red is a maximum
and `g ≥ b`. -/
theorem guard_idle_unless_red_max_witness :
    0 ≤ (RgbToHsvNoGuard 1 1 0).1 ∧ RgbToHsv 1 1 0 = RgbToHsvNoGuard 1 1 0 :=
  guard_idle_unless_red_max 1 1 0 (by norm_num) (by norm_num) (by norm_num) (by norm_num)
    (by norm_num) (by norm_num) (fun h => absurd h.2 (by norm_num))

/-! ## The inverse conversions stay in the cube -/

theorem HsvToRgb_cases (h s v : ℚ) (h0 : 0 ≤ h) (h1 : h ≤ 1) (hs : s ≠ 0) :
    ∃ f : ℚ, 0 ≤ f ∧ f < 1 ∧
      (HsvToRgb h s v = (v, v * (1 - s * (1 - f)), v * (1 - s)) ∨
       HsvToRgb h s v = (v * (1 - s * f), v, v * (1 - s)) ∨
       HsvToRgb h s v = (v * (1 - s), v, v * (1 - s * (1 - f))) ∨
       HsvToRgb h s v = (v * (1 - s), v * (1 - s * f), v) ∨
       HsvToRgb h s v = (v * (1 - s * (1 - f)), v * (1 - s), v) ∨
       HsvToRgb h s v = (v, v * (1 - s), v * (1 - s * f))) := by
  have k0 : 0 ≤ ⌊h * 6⌋ := Int.floor_nonneg.mpr (by linarith)
  have k6 : ⌊h * 6⌋ ≤ 6 := by
    have : ⌊h * 6⌋ ≤ ⌊(6 : ℚ)⌋ := Int.floor_le_floor (by linarith)
    simpa using this
  have hl := Int.floor_le (h * 6)
  have hu := Int.lt_floor_add_one (h * 6)
  generalize ⌊h * 6⌋ = k at k0 k6 hl hu
  interval_cases k
  · have a : (0 : ℚ) ≤ h * 6 := by simpa using hl
    have c : h * 6 < 1 := by simpa using hu
    exact ⟨h * 6 - 0, by linarith, by linarith,
      Or.inl (HsvToRgb_sector0 _ _ _ hs a c)⟩
  · have a : (1 : ℚ) ≤ h * 6 := by simpa using hl
    have c : h * 6 < 2 := by norm_num at hu; linarith
    exact ⟨h * 6 - 1, by linarith, by linarith,
      Or.inr (Or.inl (HsvToRgb_sector1 _ _ _ hs a c))⟩
  · have a : (2 : ℚ) ≤ h * 6 := by simpa using hl
    have c : h * 6 < 3 := by norm_num at hu; linarith
    exact ⟨h * 6 - 2, by linarith, by linarith,
      Or.inr (Or.inr (Or.inl (HsvToRgb_sector2 _ _ _ hs a c)))⟩
  · have a : (3 : ℚ) ≤ h * 6 := by simpa using hl
    have c : h * 6 < 4 := by norm_num at hu; linarith
    exact ⟨h * 6 - 3, by linarith, by linarith,
      Or.inr (Or.inr (Or.inr (Or.inl (HsvToRgb_sector3 _ _ _ hs a c))))⟩
  · have a : (4 : ℚ) ≤ h * 6 := by simpa using hl
    have c : h * 6 < 5 := by norm_num at hu; linarith
    exact ⟨h * 6 - 4, by linarith, by linarith,
      Or.inr (Or.inr (Or.inr (Or.inr (Or.inl (HsvToRgb_sector4 _ _ _ hs a c)))))⟩
  · have a : (5 : ℚ) ≤ h * 6 := by simpa using hl
    have c : h * 6 < 6 := by norm_num at hu; linarith
    exact ⟨h * 6 - 5, by linarith, by linarith,
      Or.inr (Or.inr (Or.inr (Or.inr (Or.inr (HsvToRgb_sector5 _ _ _ hs a c)))))⟩
  · have a : (6 : ℚ) ≤ h * 6 := by simpa using hl
    have e : h = 1 := by linarith
    subst e
    exact ⟨1 * 6 - 6, by norm_num, by norm_num, Or.inl (HsvToRgb_one s v hs)⟩

theorem chan_mem (v s x : ℚ) (hv0 : 0 ≤ v) (hv1 : v ≤ 1) (hs0 : 0 ≤ s) (hs1 : s ≤ 1)
    (hx0 : 0 ≤ x) (hx1 : x ≤ 1) : 0 ≤ v * (1 - s * x) ∧ v * (1 - s * x) ≤ 1 := by
  have a : s * x ≤ 1 := mul_le_one₀ hs1 hx0 hx1
  have c : 0 ≤ s * x := mul_nonneg hs0 hx0
  exact ⟨mul_nonneg hv0 (by linarith), mul_le_one₀ hv1 (by linarith) (by linarith)⟩

theorem chan_mem_p (v s : ℚ) (hv0 : 0 ≤ v) (hv1 : v ≤ 1) (hs0 : 0 ≤ s) (hs1 : s ≤ 1) :
    0 ≤ v * (1 - s) ∧ v * (1 - s) ≤ 1 :=
  ⟨mul_nonneg hv0 (by linarith), mul_le_one₀ hv1 (by linarith) (by linarith)⟩

theorem HsvToRgb_in_cube (h s v : ℚ) (h0 : 0 ≤ h) (h1 : h ≤ 1) (hs0 : 0 ≤ s) (hs1 : s ≤ 1)
    (hv0 : 0 ≤ v) (hv1 : v ≤ 1) :
    (0 ≤ (HsvToRgb h s v).1 ∧ (HsvToRgb h s v).1 ≤ 1) ∧
    (0 ≤ (HsvToRgb h s v).2.1 ∧ (HsvToRgb h s v).2.1 ≤ 1) ∧
    (0 ≤ (HsvToRgb h s v).2.2 ∧ (HsvToRgb h s v).2.2 ≤ 1) := by
  by_cases hs : s = 0
  · subst hs
    rw [HsvToRgb_gray]
    exact ⟨⟨hv0, hv1⟩, ⟨hv0, hv1⟩, ⟨hv0, hv1⟩⟩
  · obtain ⟨f, f0, f1, e⟩ := HsvToRgb_cases h s v h0 h1 hs
    have hp := chan_mem_p v s hv0 hv1 hs0 hs1
    have hq := chan_mem v s f hv0 hv1 hs0 hs1 f0 f1.le
    have ht := chan_mem v s (1 - f) hv0 hv1 hs0 hs1 (by linarith) (by linarith)
    rcases e with e | e | e | e | e | e <;> rw [e] <;>
      first
      | exact ⟨⟨hv0, hv1⟩, ht, hp⟩
      | exact ⟨hq, ⟨hv0, hv1⟩, hp⟩
      | exact ⟨hp, ⟨hv0, hv1⟩, ht⟩
      | exact ⟨hp, hq, ⟨hv0, hv1⟩⟩
      | exact ⟨ht, hp, ⟨hv0, hv1⟩⟩
      | exact ⟨⟨hv0, hv1⟩, hp, hq⟩

theorem v_affine (m1 m2 x : ℚ) : _v m1 m2 x = m1 + (m2 - m1) * _v 0 1 x := by
  unfold _v
  dsimp only
  split_ifs <;> ring

theorem v_unit_mem (x : ℚ) (h1 : -1 ≤ x) : 0 ≤ _v 0 1 x ∧ _v 0 1 x ≤ 1 := by
  unfold _v
  simp only [ONE_SIXTH, TWO_THIRD]
  constructor <;> split_ifs <;> linarith

theorem v_mem (m1 m2 x : ℚ) (hm : m1 ≤ m2) (h1 : -1 ≤ x) :
    m1 ≤ _v m1 m2 x ∧ _v m1 m2 x ≤ m2 := by
  obtain ⟨t0, t1⟩ := v_unit_mem x h1
  rw [v_affine]
  have a : 0 ≤ (m2 - m1) * _v 0 1 x := mul_nonneg (by linarith) t0
  have c : (m2 - m1) * _v 0 1 x ≤ m2 - m1 := mul_le_of_le_one_right (by linarith) t1
  constructor <;> linarith

theorem hls_anchor_bounds (l s : ℚ) (hl0 : 0 ≤ l) (hl1 : l ≤ 1) (hs0 : 0 ≤ s) (hs1 : s ≤ 1) :
    0 ≤ 2 * l - (if l ≤ 0.5 then l * (1 + s) else l + s - l * s) ∧
    2 * l - (if l ≤ 0.5 then l * (1 + s) else l + s - l * s) ≤
      (if l ≤ 0.5 then l * (1 + s) else l + s - l * s) ∧
    (if l ≤ 0.5 then l * (1 + s) else l + s - l * s) ≤ 1 := by
  have p1 : 0 ≤ l * s := mul_nonneg hl0 hs0
  have p2 : l * s ≤ l := mul_le_of_le_one_right hl0 hs1
  have p3 : l * s ≤ s := mul_le_of_le_one_left hs0 hl1
  have p4 : 0 ≤ (1 - l) * (1 - s) := mul_nonneg (by linarith) (by linarith)
  split_ifs with c
  · norm_num at c
    refine ⟨?_, ?_, ?_⟩ <;> linarith
  · norm_num at c
    refine ⟨?_, ?_, ?_⟩ <;> linarith

theorem HlsToRgb_in_cube (h l s : ℚ) (h0 : 0 ≤ h) (_h1 : h ≤ 1) (hl0 : 0 ≤ l) (hl1 : l ≤ 1)
    (hs0 : 0 ≤ s) (hs1 : s ≤ 1) :
    (0 ≤ (HlsToRgb h l s).1 ∧ (HlsToRgb h l s).1 ≤ 1) ∧
    (0 ≤ (HlsToRgb h l s).2.1 ∧ (HlsToRgb h l s).2.1 ≤ 1) ∧
    (0 ≤ (HlsToRgb h l s).2.2 ∧ (HlsToRgb h l s).2.2 ≤ 1) := by
  by_cases hs : s = 0
  · subst hs
    rw [HlsToRgb_gray]
    exact ⟨⟨hl0, hl1⟩, ⟨hl0, hl1⟩, ⟨hl0, hl1⟩⟩
  · obtain ⟨a1, a2, a3⟩ := hls_anchor_bounds l s hl0 hl1 hs0 hs1
    unfold HlsToRgb
    rw [if_neg hs]
    simp only [ONE_THIRD]
    obtain ⟨r1, r2⟩ := v_mem _ _ (h + 1 / 3) a2 (by linarith)
    obtain ⟨g1, g2⟩ := v_mem _ _ h a2 (by linarith)
    obtain ⟨b1, b2⟩ := v_mem _ _ (h - 1 / 3) a2 (by linarith)
    exact ⟨⟨by linarith, by linarith⟩, ⟨by linarith, by linarith⟩, ⟨by linarith, by linarith⟩⟩

/-- C12: the inverse conversions stay inside the RGB cube.  For `h`, `s`, `v`
each in `[0, 1]` every channel of `HsvToRgb h s v` lies in `[0, 1]`, and for
`h`, `l`, `s` each in `[0, 1]` every channel of `HlsToRgb h l s` lies in `[0, 1]`. -/
theorem inverse_in_cube (h s v l : ℚ) (h0 : 0 ≤ h) (h1 : h ≤ 1) (hs0 : 0 ≤ s) (hs1 : s ≤ 1)
    (hv0 : 0 ≤ v) (hv1 : v ≤ 1) (hl0 : 0 ≤ l) (hl1 : l ≤ 1) :
    ((0 ≤ (HsvToRgb h s v).1 ∧ (HsvToRgb h s v).1 ≤ 1) ∧
     (0 ≤ (HsvToRgb h s v).2.1 ∧ (HsvToRgb h s v).2.1 ≤ 1) ∧
     (0 ≤ (HsvToRgb h s v).2.2 ∧ (HsvToRgb h s v).2.2 ≤ 1)) ∧
    ((0 ≤ (HlsToRgb h l s).1 ∧ (HlsToRgb h l s).1 ≤ 1) ∧
     (0 ≤ (HlsToRgb h l s).2.1 ∧ (HlsToRgb h l s).2.1 ≤ 1) ∧
     (0 ≤ (HlsToRgb h l s).2.2 ∧ (HlsToRgb h l s).2.2 ≤ 1)) :=
  ⟨HsvToRgb_in_cube h s v h0 h1 hs0 hs1 hv0 hv1, HlsToRgb_in_cube h l s h0 h1 hl0 hl1 hs0 hs1⟩

/-- Witness for C12 at hue `1`, saturation `1`, value and lightness `1/2`. -/
theorem inverse_in_cube_witness :
    ((0 ≤ (HsvToRgb 1 1 (1 / 2)).1 ∧ (HsvToRgb 1 1 (1 / 2)).1 ≤ 1) ∧
     (0 ≤ (HsvToRgb 1 1 (1 / 2)).2.1 ∧ (HsvToRgb 1 1 (1 / 2)).2.1 ≤ 1) ∧
     (0 ≤ (HsvToRgb 1 1 (1 / 2)).2.2 ∧ (HsvToRgb 1 1 (1 / 2)).2.2 ≤ 1)) ∧
    ((0 ≤ (HlsToRgb 1 (1 / 2) 1).1 ∧ (HlsToRgb 1 (1 / 2) 1).1 ≤ 1) ∧
     (0 ≤ (HlsToRgb 1 (1 / 2) 1).2.1 ∧ (HlsToRgb 1 (1 / 2) 1).2.1 ≤ 1) ∧
     (0 ≤ (HlsToRgb 1 (1 / 2) 1).2.2 ∧ (HlsToRgb 1 (1 / 2) 1).2.2 ≤ 1)) :=
  inverse_in_cube 1 1 (1 / 2) (1 / 2) (by norm_num) (by norm_num) (by norm_num) (by norm_num)
    (by norm_num) (by norm_num) (by norm_num) (by norm_num)

/-! ## Reverse HSV round trip -/

theorem hsv_products (s v f : ℚ) (hs0 : 0 < s) (hv0 : 0 < v) (f0 : 0 ≤ f) (f1 : f < 1) :
    0 < v * s ∧ 0 ≤ v * s * f ∧ v * s * f < v * s := by
  have a : 0 < v * s := mul_pos hv0 hs0
  exact ⟨a, mul_nonneg a.le f0, by nlinarith⟩

theorem hsv_reverse_sector0 (h s v : ℚ) (hs0 : 0 < s) (hv0 : 0 < v)
    (a : 0 ≤ h * 6) (c : h * 6 < 1) :
    RgbToHsv (HsvToRgb h s v).1 (HsvToRgb h s v).2.1 (HsvToRgb h s v).2.2 = (h, s, v) := by
  obtain ⟨p1, p2, p3⟩ := hsv_products s v (h * 6 - 0) hs0 hv0 (by linarith) (by linarith)
  rw [HsvToRgb_sector0 _ _ _ hs0.ne' a c]
  dsimp only
  rw [RgbToHsv_rmax_ge _ _ _ (by linarith) (by linarith) (by linarith)]
  have hd : v - v * (1 - s) ≠ 0 := by intro e; linarith
  refine Prod.ext ?_ (Prod.ext ?_ rfl) <;> dsimp only <;> field_simp <;> ring

theorem hsv_reverse_sector1 (h s v : ℚ) (hs0 : 0 < s) (hv0 : 0 < v)
    (a : 1 ≤ h * 6) (c : h * 6 < 2) :
    RgbToHsv (HsvToRgb h s v).1 (HsvToRgb h s v).2.1 (HsvToRgb h s v).2.2 = (h, s, v) := by
  obtain ⟨p1, p2, p3⟩ := hsv_products s v (h * 6 - 1) hs0 hv0 (by linarith) (by linarith)
  rw [HsvToRgb_sector1 _ _ _ hs0.ne' a c]
  dsimp only
  have hd : v - v * (1 - s) ≠ 0 := by intro e; linarith
  rcases eq_or_lt_of_le a with e | e
  · have eq : v * (1 - s * (h * 6 - 1)) = v := by rw [← e]; ring
    rw [eq, RgbToHsv_rmax_ge _ _ _ (by linarith) (by linarith) (by linarith)]
    refine Prod.ext ?_ (Prod.ext ?_ rfl) <;> dsimp only
    · rw [div_self hd]; linarith
    · field_simp; ring
  · have p4 : 0 < v * s * (h * 6 - 1) := mul_pos p1 (by linarith)
    rw [RgbToHsv_gmax_lt _ _ _ (by linarith) (by linarith)]
    refine Prod.ext ?_ (Prod.ext ?_ rfl) <;> dsimp only <;> field_simp <;> ring

theorem hsv_reverse_sector2 (h s v : ℚ) (hs0 : 0 < s) (hv0 : 0 < v)
    (a : 2 ≤ h * 6) (c : h * 6 < 3) :
    RgbToHsv (HsvToRgb h s v).1 (HsvToRgb h s v).2.1 (HsvToRgb h s v).2.2 = (h, s, v) := by
  obtain ⟨p1, p2, p3⟩ := hsv_products s v (h * 6 - 2) hs0 hv0 (by linarith) (by linarith)
  rw [HsvToRgb_sector2 _ _ _ hs0.ne' a c]
  dsimp only
  rw [RgbToHsv_gmax_ge _ _ _ (by linarith) (by linarith) (by linarith)]
  have hd : v - v * (1 - s) ≠ 0 := by intro e; linarith
  refine Prod.ext ?_ (Prod.ext ?_ rfl) <;> dsimp only <;> field_simp <;> ring

theorem hsv_reverse_sector3 (h s v : ℚ) (hs0 : 0 < s) (hv0 : 0 < v)
    (a : 3 ≤ h * 6) (c : h * 6 < 4) :
    RgbToHsv (HsvToRgb h s v).1 (HsvToRgb h s v).2.1 (HsvToRgb h s v).2.2 = (h, s, v) := by
  obtain ⟨p1, p2, p3⟩ := hsv_products s v (h * 6 - 3) hs0 hv0 (by linarith) (by linarith)
  rw [HsvToRgb_sector3 _ _ _ hs0.ne' a c]
  dsimp only
  have hd : v - v * (1 - s) ≠ 0 := by intro e; linarith
  rcases eq_or_lt_of_le a with e | e
  · have eq : v * (1 - s * (h * 6 - 3)) = v := by rw [← e]; ring
    rw [eq, RgbToHsv_gmax_ge _ _ _ (by linarith) (by linarith) (by linarith)]
    refine Prod.ext ?_ (Prod.ext ?_ rfl) <;> dsimp only
    · rw [div_self hd]; linarith
    · field_simp; ring
  · have p4 : 0 < v * s * (h * 6 - 3) := mul_pos p1 (by linarith)
    rw [RgbToHsv_bmax_lt _ _ _ (by linarith) (by linarith)]
    refine Prod.ext ?_ (Prod.ext ?_ rfl) <;> dsimp only <;> field_simp <;> ring

theorem hsv_reverse_sector4 (h s v : ℚ) (hs0 : 0 < s) (hv0 : 0 < v)
    (a : 4 ≤ h * 6) (c : h * 6 < 5) :
    RgbToHsv (HsvToRgb h s v).1 (HsvToRgb h s v).2.1 (HsvToRgb h s v).2.2 = (h, s, v) := by
  obtain ⟨p1, p2, p3⟩ := hsv_products s v (h * 6 - 4) hs0 hv0 (by linarith) (by linarith)
  rw [HsvToRgb_sector4 _ _ _ hs0.ne' a c]
  dsimp only
  rw [RgbToHsv_bmax_ge _ _ _ (by linarith) (by linarith)]
  have hd : v - v * (1 - s) ≠ 0 := by intro e; linarith
  refine Prod.ext ?_ (Prod.ext ?_ rfl) <;> dsimp only <;> field_simp <;> ring

theorem hsv_reverse_sector5 (h s v : ℚ) (hs0 : 0 < s) (hv0 : 0 < v)
    (a : 5 ≤ h * 6) (c : h * 6 < 6) :
    RgbToHsv (HsvToRgb h s v).1 (HsvToRgb h s v).2.1 (HsvToRgb h s v).2.2 = (h, s, v) := by
  obtain ⟨p1, p2, p3⟩ := hsv_products s v (h * 6 - 5) hs0 hv0 (by linarith) (by linarith)
  rw [HsvToRgb_sector5 _ _ _ hs0.ne' a c]
  dsimp only
  rw [RgbToHsv_rmax_lt _ _ _ (by linarith) (by linarith)]
  have hd : v - v * (1 - s) ≠ 0 := by intro e; linarith
  refine Prod.ext ?_ (Prod.ext ?_ rfl) <;> dsimp only <;> field_simp <;> ring

theorem hsv_reverse (h s v : ℚ) (h0 : 0 ≤ h) (h1 : h < 1) (hs0 : 0 < s) (hv0 : 0 < v) :
    RgbToHsv (HsvToRgb h s v).1 (HsvToRgb h s v).2.1 (HsvToRgb h s v).2.2 = (h, s, v) := by
  rcases lt_or_le (h * 6) 1 with c1 | c1
  · exact hsv_reverse_sector0 h s v hs0 hv0 (by linarith) c1
  rcases lt_or_le (h * 6) 2 with c2 | c2
  · exact hsv_reverse_sector1 h s v hs0 hv0 c1 c2
  rcases lt_or_le (h * 6) 3 with c3 | c3
  · exact hsv_reverse_sector2 h s v hs0 hv0 c2 c3
  rcases lt_or_le (h * 6) 4 with c4 | c4
  · exact hsv_reverse_sector3 h s v hs0 hv0 c3 c4
  rcases lt_or_le (h * 6) 5 with c5 | c5
  · exact hsv_reverse_sector4 h s v hs0 hv0 c4 c5
  · exact hsv_reverse_sector5 h s v hs0 hv0 c5 (by linarith)

theorem HsvToRgb_not_gray (h s v : ℚ) (h0 : 0 ≤ h) (h1 : h < 1) (hs0 : 0 < s) (hv0 : 0 < v) :
    ¬ ((HsvToRgb h s v).1 = (HsvToRgb h s v).2.1 ∧
       (HsvToRgb h s v).2.1 = (HsvToRgb h s v).2.2) := by
  intro e
  have k := hsv_reverse h s v h0 h1 hs0 hv0
  rw [e.1, e.2, RgbToHsv_gray] at k
  have k2 : (0 : ℚ) = s := congrArg (fun t : ℚ × ℚ × ℚ => t.2.1) k
  linarith

theorem RgbToHsv_not_gray_pos (r g b : ℚ) (hr0 : 0 ≤ r) (hr1 : r ≤ 1) (hg0 : 0 ≤ g)
    (hg1 : g ≤ 1) (hb0 : 0 ≤ b) (hb1 : b ≤ 1) (hne : ¬ (r = g ∧ g = b)) :
    0 < (RgbToHsv r g b).2.1 ∧ 0 < (RgbToHsv r g b).2.2 := by
  obtain ⟨_, ⟨s0, _⟩, hv, ⟨v0, _⟩⟩ := RgbToHsv_range_aux r g b hr0 hr1 hg0 hg1 hb0 hb1
  have k := hsv_round_trip_eq r g b hr0 hg0 hb0
  constructor
  · rcases eq_or_lt_of_le s0 with e | e
    · exfalso
      rw [← e, HsvToRgb_gray] at k
      have k1 : (RgbToHsv r g b).2.2 = r := congrArg (fun t : ℚ × ℚ × ℚ => t.1) k
      have k2 : (RgbToHsv r g b).2.2 = g := congrArg (fun t : ℚ × ℚ × ℚ => t.2.1) k
      have k3 : (RgbToHsv r g b).2.2 = b := congrArg (fun t : ℚ × ℚ × ℚ => t.2.2) k
      exact hne ⟨k1.symm.trans k2, k2.symm.trans k3⟩
    · exact e
  · rcases eq_or_lt_of_le v0 with e | e
    · exfalso
      rw [hv] at e
      have a1 := le_max3_left r g b
      have a2 := le_max3_mid r g b
      have a3 := le_max3_right r g b
      exact hne ⟨by linarith, by linarith⟩
    · exact e

/-- C18: reverse HSV round trip.  For `0 ≤ h < 1`, `0 < s ≤ 1`, `0 < v ≤ 1`,
`RgbToHsv` applied to `HsvToRgb h s v` returns exactly `(h, s, v)`, and
`HsvToRgb h s v` is a non-gray triple of the RGB cube; conversely, for a
non-gray RGB triple with each component in `[0, 1]`, `RgbToHsv r g b` has
`0 ≤ h < 1`, `0 < s ≤ 1`, `0 < v ≤ 1` and `HsvToRgb` maps it back to
`(r, g, b)`: the two functions are mutually inverse bijections between these
two sets. -/
theorem hsv_reverse_round_trip (h s v r g b : ℚ) (h0 : 0 ≤ h) (h1 : h < 1) (hs0 : 0 < s)
    (hs1 : s ≤ 1) (hv0 : 0 < v) (hv1 : v ≤ 1) (hr0 : 0 ≤ r) (hr1 : r ≤ 1) (hg0 : 0 ≤ g)
    (hg1 : g ≤ 1) (hb0 : 0 ≤ b) (hb1 : b ≤ 1) (hne : ¬ (r = g ∧ g = b)) :
    RgbToHsv (HsvToRgb h s v).1 (HsvToRgb h s v).2.1 (HsvToRgb h s v).2.2 = (h, s, v) ∧
    ((0 ≤ (HsvToRgb h s v).1 ∧ (HsvToRgb h s v).1 ≤ 1) ∧
     (0 ≤ (HsvToRgb h s v).2.1 ∧ (HsvToRgb h s v).2.1 ≤ 1) ∧
     (0 ≤ (HsvToRgb h s v).2.2 ∧ (HsvToRgb h s v).2.2 ≤ 1)) ∧
    ¬ ((HsvToRgb h s v).1 = (HsvToRgb h s v).2.1 ∧
       (HsvToRgb h s v).2.1 = (HsvToRgb h s v).2.2) ∧
    ((0 ≤ (RgbToHsv r g b).1 ∧ (RgbToHsv r g b).1 < 1) ∧
     (0 < (RgbToHsv r g b).2.1 ∧ (RgbToHsv r g b).2.1 ≤ 1) ∧
     (0 < (RgbToHsv r g b).2.2 ∧ (RgbToHsv r g b).2.2 ≤ 1)) ∧
    HsvToRgb (RgbToHsv r g b).1 (RgbToHsv r g b).2.1 (RgbToHsv r g b).2.2 = (r, g, b) := by
  obtain ⟨a1, ⟨_, a2⟩, _, ⟨_, a3⟩⟩ := RgbToHsv_range_aux r g b hr0 hr1 hg0 hg1 hb0 hb1
  obtain ⟨c1, c2⟩ := RgbToHsv_not_gray_pos r g b hr0 hr1 hg0 hg1 hb0 hb1 hne
  exact ⟨hsv_reverse h s v h0 h1 hs0 hv0,
    HsvToRgb_in_cube h s v h0 h1.le hs0.le hs1 hv0.le hv1,
    HsvToRgb_not_gray h s v h0 h1 hs0 hv0,
    ⟨a1, ⟨c1, a2⟩, ⟨c2, a3⟩⟩,
    hsv_round_trip_eq r g b hr0 hg0 hb0⟩

/-- Witness for C18 at the purple of the test tables: `(5/6, 1, 1/2)` on the
HSV side and `(1/2, 0, 1/2)` on the RGB side. -/
theorem hsv_reverse_round_trip_witness :
    RgbToHsv (HsvToRgb (5 / 6) 1 (1 / 2)).1 (HsvToRgb (5 / 6) 1 (1 / 2)).2.1
      (HsvToRgb (5 / 6) 1 (1 / 2)).2.2 = (5 / 6, 1, 1 / 2) :=
  (hsv_reverse_round_trip (5 / 6) 1 (1 / 2) (1 / 2) 0 (1 / 2) (by norm_num) (by norm_num)
    (by norm_num) (by norm_num) (by norm_num) (by norm_num) (by norm_num) (by norm_num)
    (by norm_num) (by norm_num) (by norm_num) (by norm_num) (by norm_num)).1

/-! ## Divisors -/

theorem min3_le_left (r g b : ℚ) : min3 r g b ≤ r :=
  le_trans (min_le_left _ b) (min_le_left r g)

theorem min3_le_mid (r g b : ℚ) : min3 r g b ≤ g :=
  le_trans (min_le_left _ b) (min_le_right r g)

theorem min3_le_right (r g b : ℚ) : min3 r g b ≤ b :=
  min_le_right _ b

theorem min3_lt_max3 (r g b : ℚ) (hne : ¬ (r = g ∧ g = b)) : min3 r g b < max3 r g b := by
  have a1 := le_max3_left r g b
  have a2 := le_max3_mid r g b
  have a3 := le_max3_right r g b
  have c1 := min3_le_left r g b
  have c2 := min3_le_mid r g b
  have c3 := min3_le_right r g b
  rcases lt_or_eq_of_le (le_trans c1 a1) with h | h
  · exact h
  · exact absurd ⟨by linarith, by linarith⟩ hne

/-- C14: no division by zero on valid input.  For every RGB triple with each
component in `[0, 1]` whose channels are not all equal, every divisor evaluated
by `RgbToHls` and by `RgbToHsv` is non-zero: `rangec`, `sumc` on the
`l ≤ 0.5` branch, `2 - maxc - minc` on the `l > 0.5` branch, and `maxc`.  On a
gray triple `RgbToHls` divides only by the constant `2` and `RgbToHsv` does not
divide at all. -/
theorem no_division_by_zero (r g b c : ℚ) (hr0 : 0 ≤ r) (hr1 : r ≤ 1) (hg0 : 0 ≤ g)
    (hg1 : g ≤ 1) (hb0 : 0 ≤ b) (hb1 : b ≤ 1) (hne : ¬ (r = g ∧ g = b)) :
    (∀ d ∈ RgbToHlsDivisors r g b, d ≠ 0) ∧ (∀ d ∈ RgbToHsvDivisors r g b, d ≠ 0) ∧
    max3 r g b - min3 r g b ≠ 0 ∧
    ((max3 r g b + min3 r g b) / 2 ≤ 0.5 → max3 r g b + min3 r g b ≠ 0) ∧
    (¬ (max3 r g b + min3 r g b) / 2 ≤ 0.5 → 2 - max3 r g b - min3 r g b ≠ 0) ∧
    max3 r g b ≠ 0 ∧
    RgbToHlsDivisors r g b =
      [2, if (max3 r g b + min3 r g b) / 2 ≤ 0.5 then max3 r g b + min3 r g b
          else 2 - max3 r g b - min3 r g b,
        max3 r g b - min3 r g b, max3 r g b - min3 r g b, max3 r g b - min3 r g b, 6, 1] ∧
    RgbToHsvDivisors r g b =
      [max3 r g b, max3 r g b - min3 r g b, max3 r g b - min3 r g b,
        max3 r g b - min3 r g b, 6, 1] ∧
    RgbToHlsDivisors c c c = [2] ∧ RgbToHsvDivisors c c c = [] := by
  have hlt := min3_lt_max3 r g b hne
  obtain ⟨_, M1⟩ := max3_mem r g b hr0 hr1 hg1 hb1
  obtain ⟨m0, _⟩ := min3_mem r g b hr0 hr1 hg0 hb0
  have d1 : max3 r g b - min3 r g b ≠ 0 := by intro e; linarith
  have d2 : max3 r g b + min3 r g b ≠ 0 := by intro e; linarith
  have d3 : ¬ (max3 r g b + min3 r g b) / 2 ≤ 0.5 → 2 - max3 r g b - min3 r g b ≠ 0 := by
    intro hl e
    apply hl
    norm_num
    linarith
  have d4 : max3 r g b ≠ 0 := by intro e; linarith
  have e1 : RgbToHlsDivisors r g b =
      [2, if (max3 r g b + min3 r g b) / 2 ≤ 0.5 then max3 r g b + min3 r g b
          else 2 - max3 r g b - min3 r g b,
        max3 r g b - min3 r g b, max3 r g b - min3 r g b, max3 r g b - min3 r g b, 6, 1] := by
    unfold RgbToHlsDivisors
    simp only [if_neg (ne_of_lt hlt)]
  have e2 : RgbToHsvDivisors r g b =
      [max3 r g b, max3 r g b - min3 r g b, max3 r g b - min3 r g b,
        max3 r g b - min3 r g b, 6, 1] := by
    unfold RgbToHsvDivisors
    simp only [if_neg (ne_of_lt hlt)]
  refine ⟨?_, ?_, d1, fun _ => d2, d3, d4, e1, e2, ?_, ?_⟩
  · intro d hd
    rw [e1] at hd
    simp only [List.mem_cons, List.mem_singleton, List.not_mem_nil, or_false] at hd
    rcases hd with h | h | h | h | h | h | h
    · rw [h]; norm_num
    · rw [h]
      split_ifs with hl
      · exact d2
      · exact d3 hl
    · rw [h]; exact d1
    · rw [h]; exact d1
    · rw [h]; exact d1
    · rw [h]; norm_num
    · rw [h]; norm_num
  · intro d hd
    rw [e2] at hd
    simp only [List.mem_cons, List.mem_singleton, List.not_mem_nil, or_false] at hd
    rcases hd with h | h | h | h | h | h
    · rw [h]; exact d4
    · rw [h]; exact d1
    · rw [h]; exact d1
    · rw [h]; exact d1
    · rw [h]; norm_num
    · rw [h]; norm_num
  · simp [RgbToHlsDivisors, max3, min3]
  · simp [RgbToHsvDivisors, max3, min3]

/-- Witness for C14 at the purple `(1/2, 0, 1/2)` and the gray `1/2`. -/
theorem no_division_by_zero_witness :
    (∀ d ∈ RgbToHlsDivisors (1 / 2) 0 (1 / 2), d ≠ 0) ∧
    (∀ d ∈ RgbToHsvDivisors (1 / 2) 0 (1 / 2), d ≠ 0) :=
  ⟨(no_division_by_zero (1 / 2) 0 (1 / 2) (1 / 2) (by norm_num) (by norm_num) (by norm_num)
      (by norm_num) (by norm_num) (by norm_num) (by norm_num)).1,
   (no_division_by_zero (1 / 2) 0 (1 / 2) (1 / 2) (by norm_num) (by norm_num) (by norm_num)
      (by norm_num) (by norm_num) (by norm_num) (by norm_num)).2.1⟩

/-! ## Continuity in the hue -/

theorem v_unit_mid (x : ℚ) (h0 : 0 ≤ x) (h1 : x ≤ 1) :
    _v 0 1 x = if x < 1 / 6 then 6 * x else if x < 1 / 2 then 1
      else if x < 2 / 3 then (2 / 3 - x) * 6 else 0 := by
  have hn : ¬ x < 0 := by linarith
  have hg : ¬ x > 1 := by linarith
  unfold _v
  simp only [ONE_SIXTH, TWO_THIRD, if_neg hn, if_neg hg]
  split_ifs <;> ring

theorem v_unit_lip_mid (x y : ℚ) (hx0 : 0 ≤ x) (hx1 : x ≤ 1) (hy0 : 0 ≤ y) (hy1 : y ≤ 1) :
    |_v 0 1 x - _v 0 1 y| ≤ 6 * |x - y| := by
  rw [v_unit_mid x hx0 hx1, v_unit_mid y hy0 hy1]
  rcases le_total x y with h | h
  · rw [abs_of_nonpos (sub_nonpos.mpr h), abs_le]
    constructor <;> split_ifs <;> linarith
  · rw [abs_of_nonneg (sub_nonneg.mpr h), abs_le]
    constructor <;> split_ifs <;> linarith

theorem v_shift_neg (m1 m2 x : ℚ) (h0 : -1 ≤ x) (h1 : x ≤ 0) :
    _v m1 m2 x = _v m1 m2 (x + 1) := by
  rcases lt_or_eq_of_le h1 with h | h
  · exact v_neg m1 m2 x h0 h
  · rw [h, v_up m1 m2 0 le_rfl (by norm_num), v_low m1 m2 (0 + 1) (by norm_num) (by norm_num)]
    ring

theorem v_shift_pos (m1 m2 x : ℚ) (h0 : 1 ≤ x) (h1 : x ≤ 2) :
    _v m1 m2 x = _v m1 m2 (x - 1) := by
  rcases lt_or_eq_of_le h0 with h | h
  · exact v_gt_one m1 m2 x h h1
  · rw [← h, v_low m1 m2 1 (by norm_num) le_rfl, v_up m1 m2 (1 - 1) (by norm_num) (by norm_num)]
    ring

theorem lip_glue (f : ℚ → ℚ) (K a c b : ℚ)
    (h1 : ∀ x y, a ≤ x → x ≤ c → a ≤ y → y ≤ c → |f x - f y| ≤ K * |x - y|)
    (h2 : ∀ x y, c ≤ x → x ≤ b → c ≤ y → y ≤ b → |f x - f y| ≤ K * |x - y|)
    (hac : a ≤ c) (hcb : c ≤ b) :
    ∀ x y, a ≤ x → x ≤ b → a ≤ y → y ≤ b → |f x - f y| ≤ K * |x - y| := by
  have key : ∀ x y, a ≤ x → x ≤ c → c ≤ y → y ≤ b → |f x - f y| ≤ K * |x - y| := by
    intro x y hx0 hx1 hy0 hy1
    have e1 := h1 x c hx0 hx1 hac le_rfl
    have e2 := h2 c y le_rfl hcb hy0 hy1
    rw [abs_of_nonpos (by linarith : x - c ≤ 0)] at e1
    rw [abs_of_nonpos (by linarith : c - y ≤ 0)] at e2
    rw [abs_of_nonpos (by linarith : x - y ≤ 0)]
    have t : |f x - f y| ≤ |f x - f c| + |f c - f y| := abs_sub_le _ _ _
    linarith
  intro x y hx0 hx1 hy0 hy1
  rcases le_total x c with hx | hx <;> rcases le_total y c with hy | hy
  · exact h1 x y hx0 hx hy0 hy
  · exact key x y hx0 hx hy hy1
  · rw [abs_sub_comm (f x), abs_sub_comm x]
    exact key y x hy0 hy hx hx1
  · exact h2 x y hx hx1 hy hy1

theorem v_unit_lip (x y : ℚ) (hx0 : -1 ≤ x) (hx1 : x ≤ 2) (hy0 : -1 ≤ y) (hy1 : y ≤ 2) :
    |_v 0 1 x - _v 0 1 y| ≤ 6 * |x - y| := by
  have hneg : ∀ x y : ℚ, -1 ≤ x → x ≤ 0 → -1 ≤ y → y ≤ 0 →
      |_v 0 1 x - _v 0 1 y| ≤ 6 * |x - y| := by
    intro x y a1 a2 a3 a4
    rw [v_shift_neg 0 1 x a1 a2, v_shift_neg 0 1 y a3 a4]
    have e := v_unit_lip_mid (x + 1) (y + 1) (by linarith) (by linarith) (by linarith)
      (by linarith)
    rwa [add_sub_add_right_eq_sub] at e
  have hpos : ∀ x y : ℚ, 1 ≤ x → x ≤ 2 → 1 ≤ y → y ≤ 2 →
      |_v 0 1 x - _v 0 1 y| ≤ 6 * |x - y| := by
    intro x y a1 a2 a3 a4
    rw [v_shift_pos 0 1 x a1 a2, v_shift_pos 0 1 y a3 a4]
    have e := v_unit_lip_mid (x - 1) (y - 1) (by linarith) (by linarith) (by linarith)
      (by linarith)
    rwa [sub_sub_sub_cancel_right] at e
  have h01 := lip_glue (_v 0 1) 6 (-1) 0 1 hneg v_unit_lip_mid (by norm_num) (by norm_num)
  exact lip_glue (_v 0 1) 6 (-1) 1 2 h01 hpos (by norm_num) (by norm_num) x y hx0 hx1 hy0 hy1

theorem v_lip (m1 m2 x y : ℚ) (hm0 : 0 ≤ m2 - m1) (hm1 : m2 - m1 ≤ 1)
    (hx0 : -1 ≤ x) (hx1 : x ≤ 2) (hy0 : -1 ≤ y) (hy1 : y ≤ 2) :
    |_v m1 m2 x - _v m1 m2 y| ≤ 6 * |x - y| := by
  have e := v_unit_lip x y hx0 hx1 hy0 hy1
  rw [v_affine m1 m2 x, v_affine m1 m2 y]
  have k : m1 + (m2 - m1) * _v 0 1 x - (m1 + (m2 - m1) * _v 0 1 y) =
      (m2 - m1) * (_v 0 1 x - _v 0 1 y) := by ring
  rw [k, abs_mul, abs_of_nonneg hm0]
  have t : (m2 - m1) * |_v 0 1 x - _v 0 1 y| ≤ 1 * |_v 0 1 x - _v 0 1 y| :=
    mul_le_mul_of_nonneg_right hm1 (abs_nonneg _)
  linarith

theorem HsvToRgb_eq_v (h s v : ℚ) (h0 : 0 ≤ h) (h1 : h ≤ 1) :
    HsvToRgb h s v =
      (_v (v * (1 - s)) v (h + 1 / 3), _v (v * (1 - s)) v h, _v (v * (1 - s)) v (h - 1 / 3)) := by
  by_cases hs : s = 0
  · subst hs
    rw [HsvToRgb_gray, v_affine _ _ (h + 1 / 3), v_affine _ _ h, v_affine _ _ (h - 1 / 3)]
    refine Prod.ext ?_ (Prod.ext ?_ ?_) <;> first | rfl | (dsimp only; ring)
  rcases lt_or_le (h * 6) 1 with c1 | c1
  · rw [HsvToRgb_sector0 _ _ _ hs (by linarith) c1,
      v_top _ _ _ (by linarith) (by linarith), v_up _ _ _ (by linarith) (by linarith),
      v_neg _ _ _ (by linarith) (by linarith), v_low _ _ _ (by linarith) (by linarith)]
    refine Prod.ext ?_ (Prod.ext ?_ ?_) <;> first | rfl | (dsimp only; ring)
  rcases lt_or_le (h * 6) 2 with c2 | c2
  · rw [HsvToRgb_sector1 _ _ _ hs c1 c2,
      v_down _ _ _ (by linarith) (by linarith), v_top _ _ _ (by linarith) (by linarith),
      v_neg _ _ _ (by linarith) (by linarith), v_low _ _ _ (by linarith) (by linarith)]
    refine Prod.ext ?_ (Prod.ext ?_ ?_) <;> first | rfl | (dsimp only; ring)
  rcases lt_or_le (h * 6) 3 with c3 | c3
  · rw [HsvToRgb_sector2 _ _ _ hs c2 c3,
      v_low _ _ (h + 1 / 3) (by linarith) (by linarith), v_top _ _ h (by linarith) (by linarith),
      v_up _ _ (h - 1 / 3) (by linarith) (by linarith)]
    refine Prod.ext ?_ (Prod.ext ?_ ?_) <;> first | rfl | (dsimp only; ring)
  rcases lt_or_le (h * 6) 4 with c4 | c4
  · rw [HsvToRgb_sector3 _ _ _ hs c3 c4,
      v_low _ _ (h + 1 / 3) (by linarith) (by linarith), v_down _ _ h (by linarith) (by linarith),
      v_top _ _ (h - 1 / 3) (by linarith) (by linarith)]
    refine Prod.ext ?_ (Prod.ext ?_ ?_) <;> first | rfl | (dsimp only; ring)
  rcases lt_or_le (h * 6) 5 with c5 | c5
  · rw [HsvToRgb_sector4 _ _ _ hs c4 c5,
      v_shift_pos _ _ (h + 1 / 3) (by linarith) (by linarith),
      v_up _ _ (h + 1 / 3 - 1) (by linarith) (by linarith),
      v_low _ _ h (by linarith) (by linarith),
      v_top _ _ (h - 1 / 3) (by linarith) (by linarith)]
    refine Prod.ext ?_ (Prod.ext ?_ ?_) <;> first | rfl | (dsimp only; ring)
  rcases lt_or_eq_of_le h1 with c6 | c6
  · rw [HsvToRgb_sector5 _ _ _ hs c5 (by linarith),
      v_shift_pos _ _ (h + 1 / 3) (by linarith) (by linarith),
      v_top _ _ (h + 1 / 3 - 1) (by linarith) (by linarith),
      v_low _ _ h (by linarith) (by linarith),
      v_down _ _ (h - 1 / 3) (by linarith) (by linarith)]
    refine Prod.ext ?_ (Prod.ext ?_ ?_) <;> first | rfl | (dsimp only; ring)
  · subst c6
    rw [HsvToRgb_one s v hs,
      v_shift_pos _ _ (1 + 1 / 3) (by norm_num) (by norm_num),
      v_top _ _ (1 + 1 / 3 - 1) (by norm_num) (by norm_num),
      v_low _ _ 1 (by norm_num) (by norm_num),
      v_low _ _ (1 - 1 / 3) (by norm_num) (by norm_num)]
    refine Prod.ext ?_ (Prod.ext ?_ ?_) <;> first | rfl | (dsimp only; ring)

theorem continuousOn_of_lip (f : ℚ → ℚ) (K : ℚ) (S : Set ℚ)
    (h : ∀ x ∈ S, ∀ y ∈ S, |f x - f y| ≤ K * |x - y|) : ContinuousOn f S := by
  have hL : LipschitzOnWith (Real.toNNReal (K : ℝ)) f S := by
    apply LipschitzOnWith.of_dist_le'
    intro x hx y hy
    rw [Rat.dist_eq, Rat.dist_eq]
    have e := h x hx y hy
    exact_mod_cast e
  exact hL.continuousOn

theorem trapezoid_triple (F : ℚ → ℚ × ℚ × ℚ) (m1 m2 : ℚ) (hm0 : 0 ≤ m2 - m1)
    (hm1 : m2 - m1 ≤ 1)
    (hF : ∀ h, 0 ≤ h → h ≤ 1 →
      F h = (_v m1 m2 (h + 1 / 3), _v m1 m2 h, _v m1 m2 (h - 1 / 3))) :
    (∀ h1 h2 : ℚ, 0 ≤ h1 → h1 ≤ 1 → 0 ≤ h2 → h2 ≤ 1 →
      |(F h1).1 - (F h2).1| ≤ 6 * |h1 - h2| ∧
      |(F h1).2.1 - (F h2).2.1| ≤ 6 * |h1 - h2| ∧
      |(F h1).2.2 - (F h2).2.2| ≤ 6 * |h1 - h2|) ∧
    ContinuousOn F (Set.Icc 0 1) ∧ F 1 = F 0 := by
  have lip : ∀ h1 h2 : ℚ, 0 ≤ h1 → h1 ≤ 1 → 0 ≤ h2 → h2 ≤ 1 →
      |(F h1).1 - (F h2).1| ≤ 6 * |h1 - h2| ∧
      |(F h1).2.1 - (F h2).2.1| ≤ 6 * |h1 - h2| ∧
      |(F h1).2.2 - (F h2).2.2| ≤ 6 * |h1 - h2| := by
    intro h1 h2 a1 a2 a3 a4
    rw [hF h1 a1 a2, hF h2 a3 a4]
    dsimp only
    have e1 := v_lip m1 m2 (h1 + 1 / 3) (h2 + 1 / 3) hm0 hm1 (by linarith) (by linarith)
      (by linarith) (by linarith)
    have e2 := v_lip m1 m2 h1 h2 hm0 hm1 (by linarith) (by linarith) (by linarith) (by linarith)
    have e3 := v_lip m1 m2 (h1 - 1 / 3) (h2 - 1 / 3) hm0 hm1 (by linarith) (by linarith)
      (by linarith) (by linarith)
    rw [add_sub_add_right_eq_sub] at e1
    rw [sub_sub_sub_cancel_right] at e3
    exact ⟨e1, e2, e3⟩
  refine ⟨lip, ?_, ?_⟩
  · have c1 : ContinuousOn (fun h => (F h).1) (Set.Icc 0 1) :=
      continuousOn_of_lip _ 6 _ (fun x hx y hy => (lip x y hx.1 hx.2 hy.1 hy.2).1)
    have c2 : ContinuousOn (fun h => (F h).2.1) (Set.Icc 0 1) :=
      continuousOn_of_lip _ 6 _ (fun x hx y hy => (lip x y hx.1 hx.2 hy.1 hy.2).2.1)
    have c3 : ContinuousOn (fun h => (F h).2.2) (Set.Icc 0 1) :=
      continuousOn_of_lip _ 6 _ (fun x hx y hy => (lip x y hx.1 hx.2 hy.1 hy.2).2.2)
    exact c1.prod (c2.prod c3)
  · rw [hF 1 (by norm_num) le_rfl, hF 0 le_rfl (by norm_num),
      v_shift_pos m1 m2 (1 + 1 / 3) (by norm_num) (by norm_num),
      v_shift_pos m1 m2 1 le_rfl (by norm_num),
      v_shift_neg m1 m2 (0 - 1 / 3) (by norm_num) (by norm_num)]
    norm_num

theorem HlsToRgb_eq_v (l s : ℚ) (hl0 : 0 ≤ l) (hl1 : l ≤ 1) (hs0 : 0 ≤ s) (hs1 : s ≤ 1) :
    ∃ m1 m2 : ℚ, 0 ≤ m2 - m1 ∧ m2 - m1 ≤ 1 ∧
      ∀ h, HlsToRgb h l s = (_v m1 m2 (h + 1 / 3), _v m1 m2 h, _v m1 m2 (h - 1 / 3)) := by
  by_cases hs : s = 0
  · refine ⟨l, l, by norm_num, by norm_num, fun h => ?_⟩
    subst hs
    rw [HlsToRgb_gray, v_affine _ _ (h + 1 / 3), v_affine _ _ h, v_affine _ _ (h - 1 / 3)]
    refine Prod.ext ?_ (Prod.ext ?_ ?_) <;> first | rfl | (dsimp only; ring)
  · obtain ⟨a1, a2, a3⟩ := hls_anchor_bounds l s hl0 hl1 hs0 hs1
    refine ⟨2 * l - (if l ≤ 0.5 then l * (1 + s) else l + s - l * s),
      (if l ≤ 0.5 then l * (1 + s) else l + s - l * s), by linarith, by linarith, fun h => ?_⟩
    unfold HlsToRgb
    simp only [if_neg hs, ONE_THIRD]

/-- C13: continuity across hue-sector boundaries.  For fixed `s`, `v` in
`[0, 1]` the map `h ↦ HsvToRgb h s v`, and for fixed `l`, `s` in `[0, 1]` the map
`h ↦ HlsToRgb h l s`, are continuous on `0 ≤ h ≤ 1`; more precisely every
channel changes by at most `6 * |h1 - h2|` between two hues of `[0, 1]`, so
there is no jump at `1/6, 1/3, 1/2, 2/3, 5/6`; and each map takes the same
value at `h = 1` as at `h = 0`. -/
theorem hue_continuity (s v l : ℚ) (hs0 : 0 ≤ s) (hs1 : s ≤ 1) (hv0 : 0 ≤ v) (hv1 : v ≤ 1)
    (hl0 : 0 ≤ l) (hl1 : l ≤ 1) :
    ContinuousOn (fun h => HsvToRgb h s v) (Set.Icc 0 1) ∧
    ContinuousOn (fun h => HlsToRgb h l s) (Set.Icc 0 1) ∧
    (∀ h1 h2 : ℚ, 0 ≤ h1 → h1 ≤ 1 → 0 ≤ h2 → h2 ≤ 1 →
      |(HsvToRgb h1 s v).1 - (HsvToRgb h2 s v).1| ≤ 6 * |h1 - h2| ∧
      |(HsvToRgb h1 s v).2.1 - (HsvToRgb h2 s v).2.1| ≤ 6 * |h1 - h2| ∧
      |(HsvToRgb h1 s v).2.2 - (HsvToRgb h2 s v).2.2| ≤ 6 * |h1 - h2|) ∧
    (∀ h1 h2 : ℚ, 0 ≤ h1 → h1 ≤ 1 → 0 ≤ h2 → h2 ≤ 1 →
      |(HlsToRgb h1 l s).1 - (HlsToRgb h2 l s).1| ≤ 6 * |h1 - h2| ∧
      |(HlsToRgb h1 l s).2.1 - (HlsToRgb h2 l s).2.1| ≤ 6 * |h1 - h2| ∧
      |(HlsToRgb h1 l s).2.2 - (HlsToRgb h2 l s).2.2| ≤ 6 * |h1 - h2|) ∧
    HsvToRgb 1 s v = HsvToRgb 0 s v ∧ HlsToRgb 1 l s = HlsToRgb 0 l s := by
  have p1 : 0 ≤ v * s := mul_nonneg hv0 hs0
  have p2 : v * s ≤ 1 := mul_le_one₀ hv1 hs0 hs1
  obtain ⟨A1, A2, A3⟩ := trapezoid_triple (fun h => HsvToRgb h s v) (v * (1 - s)) v
    (by linarith) (by linarith) (fun h a c => HsvToRgb_eq_v h s v a c)
  obtain ⟨m1, m2, b0, b1, hF⟩ := HlsToRgb_eq_v l s hl0 hl1 hs0 hs1
  obtain ⟨B1, B2, B3⟩ := trapezoid_triple (fun h => HlsToRgb h l s) m1 m2 b0 b1
    (fun h _ _ => hF h)
  exact ⟨A2, B2, A1, B1, A3, B3⟩

/-- Witness for C13 at full saturation, value `1/2` and lightness `1/2`. -/
theorem hue_continuity_witness :
    ContinuousOn (fun h => HsvToRgb h 1 (1 / 2)) (Set.Icc 0 1) ∧
    ContinuousOn (fun h => HlsToRgb h (1 / 2) 1) (Set.Icc 0 1) ∧
    HsvToRgb 1 1 (1 / 2) = HsvToRgb 0 1 (1 / 2) ∧
    HlsToRgb 1 (1 / 2) 1 = HlsToRgb 0 (1 / 2) 1 :=
  ⟨(hue_continuity 1 (1 / 2) (1 / 2) (by norm_num) (by norm_num) (by norm_num) (by norm_num)
      (by norm_num) (by norm_num)).1,
   (hue_continuity 1 (1 / 2) (1 / 2) (by norm_num) (by norm_num) (by norm_num) (by norm_num)
      (by norm_num) (by norm_num)).2.1,
   (hue_continuity 1 (1 / 2) (1 / 2) (by norm_num) (by norm_num) (by norm_num) (by norm_num)
      (by norm_num) (by norm_num)).2.2.2.2⟩

/-! ## Rounding to float64 -/

theorem roundHalfEven_near (q : ℚ) (n : ℤ) (h1 : (n : ℚ) - 1 / 2 < q) (h2 : q < (n : ℚ) + 1 / 2) :
    roundHalfEven q = n := by
  unfold roundHalfEven
  rcases le_or_lt (n : ℚ) q with h | h
  · have e : ⌊q⌋ = n := Int.floor_eq_iff.mpr ⟨h, by linarith⟩
    rw [e, if_pos (by linarith)]
  · have e : ⌊q⌋ = n - 1 := Int.floor_eq_iff.mpr ⟨by push_cast; linarith, by push_cast; linarith⟩
    rw [e]
    push_cast
    rw [if_neg (by linarith), if_pos (by linarith)]
    ring

theorem roundHalfEven_tie_even (q : ℚ) (n : ℤ) (h : q = (n : ℚ) + 1 / 2) (hn : n % 2 = 0) :
    roundHalfEven q = n := by
  have e : ⌊q⌋ = n := Int.floor_eq_iff.mpr ⟨by linarith, by linarith⟩
  unfold roundHalfEven
  rw [e, if_neg (by linarith), if_neg (by linarith), if_pos hn]

theorem roundHalfEven_tie_odd (q : ℚ) (n : ℤ) (h : q = (n : ℚ) + 1 / 2) (hn : n % 2 = 1) :
    roundHalfEven q = n + 1 := by
  have e : ⌊q⌋ = n := Int.floor_eq_iff.mpr ⟨by linarith, by linarith⟩
  unfold roundHalfEven
  rw [e, if_neg (by linarith), if_neg (by linarith), if_neg (by omega)]

theorem binade_eq (x : ℚ) (e : ℤ) (he : -1022 ≤ e) (h1 : (2 : ℚ) ^ e ≤ |x|)
    (h2 : |x| < (2 : ℚ) ^ (e + 1)) : binade x = e := by
  have hx : 0 < |x| := lt_of_lt_of_le (zpow_pos (by norm_num) e) h1
  have a : e ≤ Int.log 2 |x| := by
    rw [← Int.zpow_le_iff_le_log (by norm_num) hx]
    exact_mod_cast h1
  have c : Int.log 2 |x| < e + 1 := by
    rw [← Int.lt_zpow_iff_log_lt (by norm_num) hx]
    exact_mod_cast h2
  unfold binade
  rw [max_eq_left (by omega)]
  omega

theorem fl_of_binade (x : ℚ) (e n : ℤ) (hb : binade x = e)
    (hn : roundHalfEven (x * (2 : ℚ) ^ (52 - e)) = n) :
    fl x = (n : ℚ) * (2 : ℚ) ^ (e - 52) := by
  unfold fl
  rw [hb, hn]

theorem fl_zero : fl 0 = 0 := by
  unfold fl
  have : roundHalfEven (0 * (2 : ℚ) ^ (52 - binade 0)) = 0 := by
    rw [zero_mul]
    exact roundHalfEven_near 0 0 (by norm_num) (by norm_num)
  rw [this]
  simp

theorem fl_pos_near (x : ℚ) (e n : ℤ) (he : -1022 ≤ e) (h1 : (2 : ℚ) ^ e ≤ x)
    (h2 : x < (2 : ℚ) ^ (e + 1)) (h3 : (n : ℚ) - 1 / 2 < x * (2 : ℚ) ^ (52 - e))
    (h4 : x * (2 : ℚ) ^ (52 - e) < (n : ℚ) + 1 / 2) :
    fl x = (n : ℚ) * (2 : ℚ) ^ (e - 52) := by
  have hx : 0 ≤ x := le_trans (zpow_pos (by norm_num) e).le h1
  have hb : binade x = e := binade_eq x e he (by rwa [abs_of_nonneg hx])
    (by rwa [abs_of_nonneg hx])
  exact fl_of_binade x e n hb (roundHalfEven_near _ n h3 h4)

theorem fl_neg_near (x : ℚ) (e n : ℤ) (he : -1022 ≤ e) (h1 : (2 : ℚ) ^ e ≤ -x)
    (h2 : -x < (2 : ℚ) ^ (e + 1)) (h3 : (n : ℚ) - 1 / 2 < x * (2 : ℚ) ^ (52 - e))
    (h4 : x * (2 : ℚ) ^ (52 - e) < (n : ℚ) + 1 / 2) :
    fl x = (n : ℚ) * (2 : ℚ) ^ (e - 52) := by
  have hx : x ≤ 0 := by linarith [(zpow_pos (by norm_num : (0 : ℚ) < 2) e)]
  have hb : binade x = e := binade_eq x e he (by rwa [abs_of_nonpos hx])
    (by rwa [abs_of_nonpos hx])
  exact fl_of_binade x e n hb (roundHalfEven_near _ n h3 h4)

theorem fl_pos_tie_even (x : ℚ) (e n : ℤ) (he : -1022 ≤ e) (h1 : (2 : ℚ) ^ e ≤ x)
    (h2 : x < (2 : ℚ) ^ (e + 1)) (h3 : x * (2 : ℚ) ^ (52 - e) = (n : ℚ) + 1 / 2)
    (hn : n % 2 = 0) :
    fl x = (n : ℚ) * (2 : ℚ) ^ (e - 52) := by
  have hx : 0 ≤ x := le_trans (zpow_pos (by norm_num) e).le h1
  have hb : binade x = e := binade_eq x e he (by rwa [abs_of_nonneg hx])
    (by rwa [abs_of_nonneg hx])
  exact fl_of_binade x e n hb (roundHalfEven_tie_even _ n h3 hn)

theorem fl_pos_tie_odd (x : ℚ) (e n : ℤ) (he : -1022 ≤ e) (h1 : (2 : ℚ) ^ e ≤ x)
    (h2 : x < (2 : ℚ) ^ (e + 1)) (h3 : x * (2 : ℚ) ^ (52 - e) = (n : ℚ) + 1 / 2)
    (hn : n % 2 = 1) :
    fl x = ((n + 1 : ℤ) : ℚ) * (2 : ℚ) ^ (e - 52) := by
  have hx : 0 ≤ x := le_trans (zpow_pos (by norm_num) e).le h1
  have hb : binade x = e := binade_eq x e he (by rwa [abs_of_nonneg hx])
    (by rwa [abs_of_nonneg hx])
  exact fl_of_binade x e (n + 1) hb (roundHalfEven_tie_odd _ n h3 hn)

theorem fl_one : fl 1 = 1 := by
  rw [fl_pos_near 1 0 4503599627370496 (by norm_num) (by norm_num) (by norm_num) (by norm_num)
    (by norm_num)]
  norm_num

/-! ## The code on float64 at inputs where rounding decides -/

theorem fl_two_pow_neg_53 : fl (1 / 9007199254740992) = 1 / 9007199254740992 := by
  rw [fl_pos_near (1 / 9007199254740992) (-53) 4503599627370496
    (by norm_num) (by norm_num) (by norm_num) (by norm_num) (by norm_num)]
  norm_num

theorem fl_two_pow_neg_54 : fl (1 / 18014398509481984) = 1 / 18014398509481984 := by
  rw [fl_pos_near (1 / 18014398509481984) (-54) 4503599627370496
    (by norm_num) (by norm_num) (by norm_num) (by norm_num) (by norm_num)]
  norm_num

theorem fl_two_pow_neg_52 : fl (1 / 4503599627370496) = 1 / 4503599627370496 := by
  rw [fl_pos_near (1 / 4503599627370496) (-52) 4503599627370496
    (by norm_num) (by norm_num) (by norm_num) (by norm_num) (by norm_num)]
  norm_num

theorem RgbToHsvF_hue_one : (RgbToHsvF 1 0 (1 / 9007199254740992)).1 = 1 := by
  have hmax : max3 1 0 (1 / 9007199254740992) = 1 := by norm_num [max3]
  have hmin : min3 1 0 (1 / 9007199254740992) = 0 := by norm_num [min3]
  have hne : ¬ ((0 : ℚ) = 1) := by norm_num
  have h1 : fl (1 - 0) = 1 := by
    rw [fl_pos_near (1 - 0)
      0 4503599627370496
      (by norm_num) (by norm_num) (by norm_num) (by norm_num) (by norm_num)]
    norm_num
  have h2 : fl (1 - (1 / 9007199254740992)) = 9007199254740991 / 9007199254740992 := by
    rw [fl_pos_near (1 - (1 / 9007199254740992))
      (-1) 9007199254740991
      (by norm_num) (by norm_num) (by norm_num) (by norm_num) (by norm_num)]
    norm_num
  have h3 : fl ((9007199254740991 / 9007199254740992) / 1) =
      9007199254740991 / 9007199254740992 := by
    rw [fl_pos_near ((9007199254740991 / 9007199254740992) / 1)
      (-1) 9007199254740991
      (by norm_num) (by norm_num) (by norm_num) (by norm_num) (by norm_num)]
    norm_num
  have h4 : fl (1 / 1) = 1 := by
    rw [fl_pos_near (1 / 1)
      0 4503599627370496
      (by norm_num) (by norm_num) (by norm_num) (by norm_num) (by norm_num)]
    norm_num
  have h5 : fl ((9007199254740991 / 9007199254740992) - 1) = -1 / 9007199254740992 := by
    rw [fl_neg_near ((9007199254740991 / 9007199254740992) - 1)
      (-53) (-4503599627370496)
      (by norm_num) (by norm_num) (by norm_num) (by norm_num) (by norm_num)]
    norm_num
  have h6 : fl ((-1 / 9007199254740992) / 6) =
      -6004799503160661 / 324518553658426726783156020576256 := by
    rw [fl_neg_near ((-1 / 9007199254740992) / 6)
      (-56) (-6004799503160661)
      (by norm_num) (by norm_num) (by norm_num) (by norm_num) (by norm_num)]
    norm_num
  have h7 : fl ((-6004799503160661 / 324518553658426726783156020576256) / 1) =
      -6004799503160661 / 324518553658426726783156020576256 := by
    rw [fl_neg_near ((-6004799503160661 / 324518553658426726783156020576256) / 1)
      (-56) (-6004799503160661)
      (by norm_num) (by norm_num) (by norm_num) (by norm_num) (by norm_num)]
    norm_num
  have h8 : fl (0) = 0 := by
    have e0 : (0 : ℚ) = 0 := by norm_num
    rw [e0, fl_zero]
  have h9 : fl (0 * 1) = 0 := by
    have e0 : (0 * 1 : ℚ) = 0 := by norm_num
    rw [e0, fl_zero]
  have h10 : fl ((-6004799503160661 / 324518553658426726783156020576256) - 0) =
      -6004799503160661 / 324518553658426726783156020576256 := by
    rw [fl_neg_near ((-6004799503160661 / 324518553658426726783156020576256) - 0)
      (-56) (-6004799503160661)
      (by norm_num) (by norm_num) (by norm_num) (by norm_num) (by norm_num)]
    norm_num
  have h11 : fl ((-6004799503160661 / 324518553658426726783156020576256) + 1) = 1 := by
    rw [fl_pos_near ((-6004799503160661 / 324518553658426726783156020576256) + 1)
      (-1) 9007199254740992
      (by norm_num) (by norm_num) (by norm_num) (by norm_num) (by norm_num)]
    norm_num
  have hg : goInt (-6004799503160661 / 324518553658426726783156020576256) = 0 :=
    goInt_eq_zero _ (by norm_num) (by norm_num)
  have hneg : (-6004799503160661 / 324518553658426726783156020576256 : ℚ) < 0 := by
    norm_num
  simp only [RgbToHsvF, _modF, hmax, hmin, hne, if_true, if_false,
    h1, h2, h3, h4, h5, h6, h7, h8, h9, h10, h11,
    hg, Int.cast_zero, hneg]

theorem RgbToHsvF_tiny_blue : (RgbToHsvF 1 0 (1 / 18014398509481984)).1 = 0 := by
  have hmax : max3 1 0 (1 / 18014398509481984) = 1 := by norm_num [max3]
  have hmin : min3 1 0 (1 / 18014398509481984) = 0 := by norm_num [min3]
  have hne : ¬ ((0 : ℚ) = 1) := by norm_num
  have h1 : fl (1 - 0) = 1 := by
    rw [fl_pos_near (1 - 0)
      0 4503599627370496
      (by norm_num) (by norm_num) (by norm_num) (by norm_num) (by norm_num)]
    norm_num
  have h2 : fl (1 - (1 / 18014398509481984)) = 1 := by
    rw [fl_pos_tie_odd (1 - (1 / 18014398509481984))
      (-1) 9007199254740991
      (by norm_num) (by norm_num) (by norm_num) (by norm_num) (by decide)]
    norm_num
  have h3 : fl (1 / 1) = 1 := by
    rw [fl_pos_near (1 / 1)
      0 4503599627370496
      (by norm_num) (by norm_num) (by norm_num) (by norm_num) (by norm_num)]
    norm_num
  have h4 : fl (1 - 1) = 0 := by
    have e0 : (1 - 1 : ℚ) = 0 := by norm_num
    rw [e0, fl_zero]
  have h5 : fl (0 / 6) = 0 := by
    have e0 : (0 / 6 : ℚ) = 0 := by norm_num
    rw [e0, fl_zero]
  have h6 : fl (0 / 1) = 0 := by
    have e0 : (0 / 1 : ℚ) = 0 := by norm_num
    rw [e0, fl_zero]
  have h7 : fl (0) = 0 := by
    have e0 : (0 : ℚ) = 0 := by norm_num
    rw [e0, fl_zero]
  have h8 : fl (0 * 1) = 0 := by
    have e0 : (0 * 1 : ℚ) = 0 := by norm_num
    rw [e0, fl_zero]
  have h9 : fl (0 - 0) = 0 := by
    have e0 : (0 - 0 : ℚ) = 0 := by norm_num
    rw [e0, fl_zero]
  have hg : goInt (0) = 0 :=
    goInt_eq_zero _ (by norm_num) (by norm_num)
  have hneg : ¬ ((0 : ℚ) < 0) := by norm_num
  simp only [RgbToHsvF, _modF, hmax, hmin, hne, if_true, if_false,
    h1, h2, h3, h4, h5, h6, h7, h8, h9,
    hg, Int.cast_zero, hneg]

theorem RgbToHlsF_tiny_blue : (RgbToHlsF 1 0 (1 / 18014398509481984)).1 = 0 := by
  have hmax : max3 1 0 (1 / 18014398509481984) = 1 := by norm_num [max3]
  have hmin : min3 1 0 (1 / 18014398509481984) = 0 := by norm_num [min3]
  have hne : ¬ ((0 : ℚ) = 1) := by norm_num
  have h1 : fl (1 - 0) = 1 := by
    rw [fl_pos_near (1 - 0)
      0 4503599627370496
      (by norm_num) (by norm_num) (by norm_num) (by norm_num) (by norm_num)]
    norm_num
  have h2 : fl (1 - (1 / 18014398509481984)) = 1 := by
    rw [fl_pos_tie_odd (1 - (1 / 18014398509481984))
      (-1) 9007199254740991
      (by norm_num) (by norm_num) (by norm_num) (by norm_num) (by decide)]
    norm_num
  have h3 : fl (1 / 1) = 1 := by
    rw [fl_pos_near (1 / 1)
      0 4503599627370496
      (by norm_num) (by norm_num) (by norm_num) (by norm_num) (by norm_num)]
    norm_num
  have h4 : fl (1 - 1) = 0 := by
    have e0 : (1 - 1 : ℚ) = 0 := by norm_num
    rw [e0, fl_zero]
  have h5 : fl (0 / 6) = 0 := by
    have e0 : (0 / 6 : ℚ) = 0 := by norm_num
    rw [e0, fl_zero]
  have h6 : fl (0 / 1) = 0 := by
    have e0 : (0 / 1 : ℚ) = 0 := by norm_num
    rw [e0, fl_zero]
  have h7 : fl (0) = 0 := by
    have e0 : (0 : ℚ) = 0 := by norm_num
    rw [e0, fl_zero]
  have h8 : fl (0 * 1) = 0 := by
    have e0 : (0 * 1 : ℚ) = 0 := by norm_num
    rw [e0, fl_zero]
  have h9 : fl (0 - 0) = 0 := by
    have e0 : (0 - 0 : ℚ) = 0 := by norm_num
    rw [e0, fl_zero]
  have hg : goInt (0) = 0 :=
    goInt_eq_zero _ (by norm_num) (by norm_num)
  simp only [RgbToHlsF, _modF, hmax, hmin, hne, if_true, if_false,
    h1, h2, h3, h4, h5, h6, h7, h8, h9,
    hg, Int.cast_zero]

theorem RgbToYiqF_white :
    RgbToYiqF 1 1 1 =
      (9007199254740991 / 9007199254740992, 2116691824864133 / 40564819207303340847894502572032,
        4008203668359741 / 40564819207303340847894502572032) := by
  have h1 : fl (0.30) = 5404319552844595 / 18014398509481984 := by
    rw [fl_pos_near (0.30)
      (-2) 5404319552844595
      (by norm_num) (by norm_num) (by norm_num) (by norm_num) (by norm_num)]
    norm_num
  have h2 : fl ((5404319552844595 / 18014398509481984) * 1) =
      5404319552844595 / 18014398509481984 := by
    rw [fl_pos_near ((5404319552844595 / 18014398509481984) * 1)
      (-2) 5404319552844595
      (by norm_num) (by norm_num) (by norm_num) (by norm_num) (by norm_num)]
    norm_num
  have h3 : fl (0.59) = 5314247560297185 / 9007199254740992 := by
    rw [fl_pos_near (0.59)
      (-1) 5314247560297185
      (by norm_num) (by norm_num) (by norm_num) (by norm_num) (by norm_num)]
    norm_num
  have h4 : fl ((5314247560297185 / 9007199254740992) * 1) =
      5314247560297185 / 9007199254740992 := by
    rw [fl_pos_near ((5314247560297185 / 9007199254740992) * 1)
      (-1) 5314247560297185
      (by norm_num) (by norm_num) (by norm_num) (by norm_num) (by norm_num)]
    norm_num
  have h5 : fl ((5404319552844595 / 18014398509481984) + (5314247560297185 / 9007199254740992)) =
      4008203668359741 / 4503599627370496 := by
    rw [fl_pos_tie_even ((5404319552844595 / 18014398509481984) + (5314247560297185 / 9007199254740992))
      (-1) 8016407336719482
      (by norm_num) (by norm_num) (by norm_num) (by norm_num) (by decide)]
    norm_num
  have h6 : fl (0.11) = 7926335344172073 / 72057594037927936 := by
    rw [fl_pos_near (0.11)
      (-4) 7926335344172073
      (by norm_num) (by norm_num) (by norm_num) (by norm_num) (by norm_num)]
    norm_num
  have h7 : fl ((7926335344172073 / 72057594037927936) * 1) =
      7926335344172073 / 72057594037927936 := by
    rw [fl_pos_near ((7926335344172073 / 72057594037927936) * 1)
      (-4) 7926335344172073
      (by norm_num) (by norm_num) (by norm_num) (by norm_num) (by norm_num)]
    norm_num
  have h8 : fl ((4008203668359741 / 4503599627370496) + (7926335344172073 / 72057594037927936)) =
      9007199254740991 / 9007199254740992 := by
    rw [fl_pos_near ((4008203668359741 / 4503599627370496) + (7926335344172073 / 72057594037927936))
      (-1) 9007199254740991
      (by norm_num) (by norm_num) (by norm_num) (by norm_num) (by norm_num)]
    norm_num
  have h9 : fl (0.74) = 3332663724254167 / 4503599627370496 := by
    rw [fl_pos_near (0.74)
      (-1) 6665327448508334
      (by norm_num) (by norm_num) (by norm_num) (by norm_num) (by norm_num)]
    norm_num
  have h10 : fl (1 - (9007199254740991 / 9007199254740992)) = 1 / 9007199254740992 := by
    rw [fl_pos_near (1 - (9007199254740991 / 9007199254740992))
      (-53) 4503599627370496
      (by norm_num) (by norm_num) (by norm_num) (by norm_num) (by norm_num)]
    norm_num
  have h11 : fl ((3332663724254167 / 4503599627370496) * (1 / 9007199254740992)) =
      3332663724254167 / 40564819207303340847894502572032 := by
    rw [fl_pos_near ((3332663724254167 / 4503599627370496) * (1 / 9007199254740992))
      (-54) 6665327448508334
      (by norm_num) (by norm_num) (by norm_num) (by norm_num) (by norm_num)]
    norm_num
  have h12 : fl (0.27) = 607985949695017 / 2251799813685248 := by
    rw [fl_pos_near (0.27)
      (-2) 4863887597560136
      (by norm_num) (by norm_num) (by norm_num) (by norm_num) (by norm_num)]
    norm_num
  have h13 : fl ((607985949695017 / 2251799813685248) * (1 / 9007199254740992)) =
      607985949695017 / 20282409603651670423947251286016 := by
    rw [fl_pos_near ((607985949695017 / 2251799813685248) * (1 / 9007199254740992))
      (-55) 4863887597560136
      (by norm_num) (by norm_num) (by norm_num) (by norm_num) (by norm_num)]
    norm_num
  have h14 : fl ((3332663724254167 / 40564819207303340847894502572032) - (607985949695017 / 20282409603651670423947251286016)) =
      2116691824864133 / 40564819207303340847894502572032 := by
    rw [fl_pos_near ((3332663724254167 / 40564819207303340847894502572032) - (607985949695017 / 20282409603651670423947251286016))
      (-55) 8466767299456532
      (by norm_num) (by norm_num) (by norm_num) (by norm_num) (by norm_num)]
    norm_num
  have h15 : fl (0.48) = 1080863910568919 / 2251799813685248 := by
    rw [fl_pos_near (0.48)
      (-2) 8646911284551352
      (by norm_num) (by norm_num) (by norm_num) (by norm_num) (by norm_num)]
    norm_num
  have h16 : fl ((1080863910568919 / 2251799813685248) * (1 / 9007199254740992)) =
      1080863910568919 / 20282409603651670423947251286016 := by
    rw [fl_pos_near ((1080863910568919 / 2251799813685248) * (1 / 9007199254740992))
      (-55) 8646911284551352
      (by norm_num) (by norm_num) (by norm_num) (by norm_num) (by norm_num)]
    norm_num
  have h17 : fl (0.41) = 7385903388887613 / 18014398509481984 := by
    rw [fl_pos_near (0.41)
      (-2) 7385903388887613
      (by norm_num) (by norm_num) (by norm_num) (by norm_num) (by norm_num)]
    norm_num
  have h18 : fl ((7385903388887613 / 18014398509481984) * (1 / 9007199254740992)) =
      7385903388887613 / 162259276829213363391578010288128 := by
    rw [fl_pos_near ((7385903388887613 / 18014398509481984) * (1 / 9007199254740992))
      (-55) 7385903388887613
      (by norm_num) (by norm_num) (by norm_num) (by norm_num) (by norm_num)]
    norm_num
  have h19 : fl ((1080863910568919 / 20282409603651670423947251286016) + (7385903388887613 / 162259276829213363391578010288128)) =
      4008203668359741 / 40564819207303340847894502572032 := by
    rw [fl_pos_tie_even ((1080863910568919 / 20282409603651670423947251286016) + (7385903388887613 / 162259276829213363391578010288128))
      (-54) 8016407336719482
      (by norm_num) (by norm_num) (by norm_num) (by norm_num) (by decide)]
    norm_num
  simp only [RgbToYiqF,
    h1, h2, h3, h4, h5, h6, h7, h8, h9, h10, h11, h12, h13, h14, h15, h16,
    h17, h18, h19]

theorem RgbToYiqF_near_red :
    (RgbToYiqF 1 (1 / 4503599627370496) 0).2.1 = 5395312353589855 / 9007199254740992 := by
  have h1 : fl (0.30) = 5404319552844595 / 18014398509481984 := by
    rw [fl_pos_near (0.30)
      (-2) 5404319552844595
      (by norm_num) (by norm_num) (by norm_num) (by norm_num) (by norm_num)]
    norm_num
  have h2 : fl ((5404319552844595 / 18014398509481984) * 1) =
      5404319552844595 / 18014398509481984 := by
    rw [fl_pos_near ((5404319552844595 / 18014398509481984) * 1)
      (-2) 5404319552844595
      (by norm_num) (by norm_num) (by norm_num) (by norm_num) (by norm_num)]
    norm_num
  have h3 : fl (0.59) = 5314247560297185 / 9007199254740992 := by
    rw [fl_pos_near (0.59)
      (-1) 5314247560297185
      (by norm_num) (by norm_num) (by norm_num) (by norm_num) (by norm_num)]
    norm_num
  have h4 : fl ((5314247560297185 / 9007199254740992) * (1 / 4503599627370496)) =
      5314247560297185 / 40564819207303340847894502572032 := by
    rw [fl_pos_near ((5314247560297185 / 9007199254740992) * (1 / 4503599627370496))
      (-53) 5314247560297185
      (by norm_num) (by norm_num) (by norm_num) (by norm_num) (by norm_num)]
    norm_num
  have h5 : fl ((5404319552844595 / 18014398509481984) + (5314247560297185 / 40564819207303340847894502572032)) =
      5404319552844597 / 18014398509481984 := by
    rw [fl_pos_near ((5404319552844595 / 18014398509481984) + (5314247560297185 / 40564819207303340847894502572032))
      (-2) 5404319552844597
      (by norm_num) (by norm_num) (by norm_num) (by norm_num) (by norm_num)]
    norm_num
  have h6 : fl (0.11) = 7926335344172073 / 72057594037927936 := by
    rw [fl_pos_near (0.11)
      (-4) 7926335344172073
      (by norm_num) (by norm_num) (by norm_num) (by norm_num) (by norm_num)]
    norm_num
  have h7 : fl ((7926335344172073 / 72057594037927936) * 0) = 0 := by
    have e0 : ((7926335344172073 / 72057594037927936) * 0 : ℚ) = 0 := by norm_num
    rw [e0, fl_zero]
  have h8 : fl ((5404319552844597 / 18014398509481984) + 0) =
      5404319552844597 / 18014398509481984 := by
    rw [fl_pos_near ((5404319552844597 / 18014398509481984) + 0)
      (-2) 5404319552844597
      (by norm_num) (by norm_num) (by norm_num) (by norm_num) (by norm_num)]
    norm_num
  have h9 : fl (0.74) = 3332663724254167 / 4503599627370496 := by
    rw [fl_pos_near (0.74)
      (-1) 6665327448508334
      (by norm_num) (by norm_num) (by norm_num) (by norm_num) (by norm_num)]
    norm_num
  have h10 : fl (1 - (5404319552844597 / 18014398509481984)) =
      3152519739159347 / 4503599627370496 := by
    rw [fl_pos_tie_odd (1 - (5404319552844597 / 18014398509481984))
      (-1) 6305039478318693
      (by norm_num) (by norm_num) (by norm_num) (by norm_num) (by decide)]
    norm_num
  have h11 : fl ((3332663724254167 / 4503599627370496) * (3152519739159347 / 4503599627370496)) =
      2332864606977917 / 4503599627370496 := by
    rw [fl_pos_near ((3332663724254167 / 4503599627370496) * (3152519739159347 / 4503599627370496))
      (-1) 4665729213955834
      (by norm_num) (by norm_num) (by norm_num) (by norm_num) (by norm_num)]
    norm_num
  have h12 : fl (0.27) = 607985949695017 / 2251799813685248 := by
    rw [fl_pos_near (0.27)
      (-2) 4863887597560136
      (by norm_num) (by norm_num) (by norm_num) (by norm_num) (by norm_num)]
    norm_num
  have h13 : fl (0 - (5404319552844597 / 18014398509481984)) =
      -5404319552844597 / 18014398509481984 := by
    rw [fl_neg_near (0 - (5404319552844597 / 18014398509481984))
      (-2) (-5404319552844597)
      (by norm_num) (by norm_num) (by norm_num) (by norm_num) (by norm_num)]
    norm_num
  have h14 : fl ((607985949695017 / 2251799813685248) * (-5404319552844597 / 18014398509481984)) =
      -5836665117072165 / 72057594037927936 := by
    rw [fl_neg_near ((607985949695017 / 2251799813685248) * (-5404319552844597 / 18014398509481984))
      (-4) (-5836665117072165)
      (by norm_num) (by norm_num) (by norm_num) (by norm_num) (by norm_num)]
    norm_num
  have h15 : fl ((2332864606977917 / 4503599627370496) - (-5836665117072165 / 72057594037927936)) =
      5395312353589855 / 9007199254740992 := by
    rw [fl_pos_near ((2332864606977917 / 4503599627370496) - (-5836665117072165 / 72057594037927936))
      (-1) 5395312353589855
      (by norm_num) (by norm_num) (by norm_num) (by norm_num) (by norm_num)]
    norm_num
  simp only [RgbToYiqF,
    h1, h2, h3, h4, h5, h6, h7, h8, h9, h10, h11, h12, h13, h14, h15]

/-- C9: on float64 the hue returned by `RgbToHsv` is not always below `1`.
The triple `(1, 0, 2^-53)` is a valid RGB triple of float64 values; on it the
wrapped hue is about `-1.85e-17`, the guard `if h < 0 { h += 1.0 }` fires, and
the sum rounds to exactly `1`, outside the range `[0, 1)` of the comment
`Normalize the hue to the [0, 1) range`. -/
theorem RgbToHsvF_hue_reaches_one :
    fl (1 / 9007199254740992) = 1 / 9007199254740992 ∧
    (0 : ℚ) ≤ 1 / 9007199254740992 ∧ (1 / 9007199254740992 : ℚ) ≤ 1 ∧
    (RgbToHsvF 1 0 (1 / 9007199254740992)).1 = 1 ∧
    ¬ (RgbToHsvF 1 0 (1 / 9007199254740992)).1 < 1 := by
  refine ⟨fl_two_pow_neg_53, by norm_num, by norm_num, RgbToHsvF_hue_one, ?_⟩
  rw [RgbToHsvF_hue_one]
  norm_num

/-- C19, counterexample: on float64 the relation between the two hues fails.
The triple `(1, 0, 2^-54)` is a valid RGB triple of float64 values with `r` the
maximum channel and `g < b`; on it `1 - 2^-54` rounds to `1`, so `bc - gc` is
`0` and `RgbToHls` and `RgbToHsv` both return the hue `0`: the hue of
`RgbToHls` is not `1` less than the hue of `RgbToHsv`, and not in `[-1/6, 0)`. -/
theorem hue_relation_fails_on_float64 :
    fl (1 / 18014398509481984) = 1 / 18014398509481984 ∧
    ((1 : ℚ) = max3 1 0 (1 / 18014398509481984) ∧ (0 : ℚ) < 1 / 18014398509481984) ∧
    (RgbToHlsF 1 0 (1 / 18014398509481984)).1 = 0 ∧
    (RgbToHsvF 1 0 (1 / 18014398509481984)).1 = 0 ∧
    ¬ ((RgbToHlsF 1 0 (1 / 18014398509481984)).1 =
          (RgbToHsvF 1 0 (1 / 18014398509481984)).1 - 1 ∧
        -1 / 6 ≤ (RgbToHlsF 1 0 (1 / 18014398509481984)).1 ∧
        (RgbToHlsF 1 0 (1 / 18014398509481984)).1 < 0) := by
  refine ⟨fl_two_pow_neg_54, ⟨by norm_num [max3], by norm_num⟩, RgbToHlsF_tiny_blue,
    RgbToHsvF_tiny_blue, ?_⟩
  rw [RgbToHlsF_tiny_blue, RgbToHsvF_tiny_blue]
  norm_num

/-- C20, counterexample: on float64 the YIQ bounds are not tight and grays do
not map to `(c, 0, 0)`.  At white `RgbToYiq` returns `y = 1 - 2^-53`, not `1`,
with `i` and `q` about `5.2e-17` and `9.9e-17`, not `0`; at the valid triple
`(1, 2^-52, 0)` it returns `i = 0.5990000000000001`, above `0.599`. -/
theorem RgbToYiqF_bounds_fail :
    RgbToYiqF 1 1 1 =
      (9007199254740991 / 9007199254740992,
        2116691824864133 / 40564819207303340847894502572032,
        4008203668359741 / 40564819207303340847894502572032) ∧
    (RgbToYiqF 1 1 1).1 ≠ 1 ∧ RgbToYiqF 1 1 1 ≠ (1, 0, 0) ∧
    fl (1 / 4503599627370496) = 1 / 4503599627370496 ∧
    ¬ |(RgbToYiqF 1 (1 / 4503599627370496) 0).2.1| ≤ 0.599 := by
  refine ⟨RgbToYiqF_white, ?_, ?_, fl_two_pow_neg_52, ?_⟩
  · rw [RgbToYiqF_white]
    norm_num
  · rw [RgbToYiqF_white]
    intro h
    have h1 := congrArg Prod.fst h
    norm_num at h1
  · rw [RgbToYiqF_near_red]
    norm_num [abs_of_pos]

end Colorsys
